import Mathlib

/-!
Shallow embedding of the yacs scheduling backend (course planner, schedule
scorer and seat-reservation state machine) together with proofs checking the
repository's specification claims against the code.

Conventions used throughout:
* Python `datetime` values are modelled as an abstract integer timeline in
  minutes, so `timedelta(minutes=m)` is `+ m`.
* SQLAlchemy rows are records; a database table is a `List` of rows; `.first()`
  on a filtered query is `List.find?`; `NULL` columns are `Option` fields
  (an SQL comparison with `NULL`, e.g. `expires_at > now`, is false).
* Python floats appearing in the planner (credits plus the `0.1` instructor
  bonus) are modelled as rationals (`ℚ`).
* Python's stable `list.sort` is modelled by Mathlib's stable `insertionSort`
  with the corresponding comparison.
-/

namespace Yacs

/-! ### Python string primitives

Character-list models of the exact Python string operations used by the
source (`str.split`, `str.strip`, `str.upper`, `str.replace`, `int(...)`),
written as structural recursions so that concrete runs reduce inside the
kernel. -/

/-- Model of Python `str.strip()`: drop whitespace at both ends. -/
def pyStrip (s : String) : String :=
  ⟨((s.data.dropWhile Char.isWhitespace).reverse.dropWhile Char.isWhitespace).reverse⟩

/-- Model of Python `str.upper()` on the ASCII letters used by the source. -/
def pyUpper (s : String) : String :=
  ⟨s.data.map Char.toUpper⟩

/-- Model of Python `str.lower()` on the ASCII letters used by the source. -/
def pyLower (s : String) : String :=
  ⟨s.data.map Char.toLower⟩

/-- Model of Python `s.replace('TR', 'R')`: left-to-right, non-overlapping. -/
def replaceTRChars : List Char → List Char
  | 'T' :: 'R' :: rest => 'R' :: replaceTRChars rest
  | c :: rest => c :: replaceTRChars rest
  | [] => []

/-- Model of Python `s.replace('AM', '')`. -/
def removeAMChars : List Char → List Char
  | 'A' :: 'M' :: rest => removeAMChars rest
  | c :: rest => c :: removeAMChars rest
  | [] => []

/-- Model of Python `s.replace('PM', '')`. -/
def removePMChars : List Char → List Char
  | 'P' :: 'M' :: rest => removePMChars rest
  | c :: rest => c :: removePMChars rest
  | [] => []

/-- Model of Python `'AM' in s`. -/
def containsAMChars : List Char → Bool
  | 'A' :: 'M' :: _ => true
  | _ :: rest => containsAMChars rest
  | [] => false

/-- Model of Python `'PM' in s`. -/
def containsPMChars : List Char → Bool
  | 'P' :: 'M' :: _ => true
  | _ :: rest => containsPMChars rest
  | [] => false

/-- Model of Python `s.split(sep)` for a one-character separator:
separator-based split keeping empty parts, always at least one part. -/
def splitSepChars (sep : Char) : List Char → List (List Char)
  | [] => [[]]
  | c :: rest =>
      if c = sep then [] :: splitSepChars sep rest
      else
        match splitSepChars sep rest with
        | g :: gs => (c :: g) :: gs
        | [] => [[c]]

/-- Model of Python `s.split()` (no argument): split on runs of whitespace,
dropping empty words. -/
def pySplitWsChars : List Char → List Char → List String
  | [], acc => if acc.isEmpty then [] else [⟨acc.reverse⟩]
  | c :: cs, acc =>
      if c.isWhitespace then
        if acc.isEmpty then pySplitWsChars cs []
        else (⟨acc.reverse⟩ : String) :: pySplitWsChars cs []
      else pySplitWsChars cs (c :: acc)

/-- Model of Python `s.split()` on a `String`. -/
def pySplitWs (s : String) : List String :=
  pySplitWsChars s.data []

/-- Value of a decimal digit character, `none` for non-digits. -/
def digitVal (c : Char) : Option Nat :=
  if '0' ≤ c ∧ c ≤ '9' then some (c.toNat - '0'.toNat) else none

/-- Accumulating decimal parser over a character list. -/
def parseNatAux : List Char → Nat → Option Nat
  | [], acc => some acc
  | c :: cs, acc =>
      match digitVal c with
      | some d => parseNatAux cs (acc * 10 + d)
      | none => none

/-- Decimal parse of a non-empty all-digit character list. -/
def parseNatChars (cs : List Char) : Option Nat :=
  if cs.isEmpty then none else parseNatAux cs 0

/-- Model of Python `int(s)` on optionally `-`-signed decimal strings (the
only forms the source feeds to `int`); any other input raises in Python and
is modelled as `none`. -/
def pyInt (s : String) : Option Int :=
  match s.data with
  | '-' :: rest => (parseNatChars rest).map (fun n => -(n : Int))
  | cs => (parseNatChars cs).map (fun n => (n : Int))

/-! ### Reservation state machine

Model of `src/backend/controllers/reservations_controller.py` over the
`course_offerings` and `reservations` tables. -/

/-- Row of the `course_offerings` table
(`src/backend/tables/course_offering.py`). -/
structure CourseOffering where
  id : Nat
  course_id : Nat
  term : String := ""
  year : Option Int := none
  sectionLabel : Option String := none
  days : Option String := none
  start_time : Option String := none
  end_time : Option String := none
  instructor : Option String := none
  location : Option String := none
  capacity : Option Int := none
  enrolled : Option Int := none
deriving DecidableEq

/-- Row of the `reservations` table (`src/backend/tables/reservation.py`). -/
structure Reservation where
  id : Nat
  offering_id : Nat
  user_id : Option Nat := none
  status : String
  created_at : Option Int := none
  expires_at : Option Int := none
  seats : Option Int := some 1
  notes : Option String := none
deriving DecidableEq

/-- The mutable state touched by the reservations controller. -/
structure ResDB where
  offerings : List CourseOffering
  reservations : List Reservation
deriving DecidableEq

/-- Error kinds raised (as `HTTPException`s) by the reservations controller. -/
inductive ApiError where
  | notFound (detail : String)
  | noSeats
  | notHeld (status : String)
  | expired
  | cannotRelease
deriving DecidableEq

/-- Outcome of a reservation endpoint: the (possibly updated) database
together with either the returned reservation or the raised error.  The
`expired` error commits a state change before raising, so errors also carry
the database. -/
inductive ResResult where
  | ok (db : ResDB) (r : Reservation)
  | err (db : ResDB) (e : ApiError)
deriving DecidableEq

/-- Database component of an endpoint outcome. -/
def ResResult.db : ResResult → ResDB
  | .ok db _ => db
  | .err db _ => db

/-- Whether an endpoint outcome is a success. -/
def ResResult.isOk : ResResult → Bool
  | .ok _ _ => true
  | .err _ _ => false

/-- The returned reservation of a successful outcome. -/
def ResResult.reservationOut : ResResult → Option Reservation
  | .ok _ r => some r
  | .err _ _ => none

/-- Count of active held reservations for an offering:
`status = 'held'` and `expires_at > now` (lines 44-48 of the controller). -/
def active_held_count (rs : List Reservation) (now : Int) (offId : Nat) : Nat :=
  (rs.filter (fun r => r.offering_id == offId && r.status == "held" &&
      (match r.expires_at with | some e => decide (e > now) | none => false))).length

/-- Count of active held reservations excluding one reservation id
(lines 90-95 of the controller). -/
def other_active_held_count (rs : List Reservation) (now : Int) (offId selfId : Nat) : Nat :=
  (rs.filter (fun r => r.offering_id == offId && r.status == "held" &&
      (match r.expires_at with | some e => decide (e > now) | none => false) &&
      r.id != selfId)).length

/-- Effective hold duration: Python `req.hold_minutes or 15` maps `None`
and `0` to the 15-minute default. -/
def effective_hold_minutes : Option Int → Int
  | none => 15
  | some h => if h = 0 then 15 else h

/-- Model of `create_reservation` (lines 31-66).  `newId` stands for the
autoincrement id the insert would assign. -/
def create_reservation (db : ResDB) (now : Int) (offeringId : Nat)
    (userId : Option Nat) (holdMinutes : Option Int) (allowOverfull : Bool)
    (newId : Nat) : ResResult :=
  let holdUntil := now + effective_hold_minutes holdMinutes
  match db.offerings.find? (fun o => o.id == offeringId) with
  | none => .err db (.notFound "Offering not found")
  | some offering =>
    let enrolled := offering.enrolled.getD 0
    let activeReserved := active_held_count db.reservations now offering.id
    let noSeats : Bool :=
      match offering.capacity with
      | some capacity => decide (capacity - enrolled - (activeReserved : Int) ≤ 0) && !allowOverfull
      | none => false
    if noSeats then .err db .noSeats
    else
      let r : Reservation :=
        { id := newId, offering_id := offering.id, user_id := userId,
          status := "held", created_at := some now, expires_at := some holdUntil,
          seats := some 1, notes := none }
      .ok { db with reservations := db.reservations ++ [r] } r

/-- Model of `commit_reservation` (lines 69-109). -/
def commit_reservation (db : ResDB) (now : Int) (reservationId : Nat)
    (allowOverfull : Bool) : ResResult :=
  match db.reservations.find? (fun r => r.id == reservationId) with
  | none => .err db (.notFound "Reservation not found")
  | some r =>
    if r.status ≠ "held" then .err db (.notHeld r.status)
    else if (match r.expires_at with | some e => decide (e < now) | none => false) then
      .err { db with reservations :=
              db.reservations.map (fun x => if x.id == r.id then { x with status := "expired" } else x) }
        .expired
    else
      match db.offerings.find? (fun o => o.id == r.offering_id) with
      | none => .err db (.notFound "Offering not found")
      | some offering =>
        let enrolled := offering.enrolled.getD 0
        let activeReserved := other_active_held_count db.reservations now offering.id r.id
        let noSeats : Bool :=
          match offering.capacity with
          | some capacity => decide (capacity - enrolled - (activeReserved : Int) ≤ 0) && !allowOverfull
          | none => false
        if noSeats then .err db .noSeats
        else
          let seatsTaken := match r.seats with | none => 1 | some s => if s = 0 then 1 else s
          .ok { offerings :=
                  db.offerings.map (fun o => if o.id == offering.id then { o with enrolled := some (enrolled + seatsTaken) } else o),
                reservations :=
                  db.reservations.map (fun x => if x.id == r.id then { x with status := "committed" } else x) }
            { r with status := "committed" }

/-- Model of `release_reservation` (lines 112-122); the endpoint's
`{"status": "released", "id": ...}` payload is summarised by returning the
released reservation. -/
def release_reservation (db : ResDB) (reservationId : Nat) : ResResult :=
  match db.reservations.find? (fun r => r.id == reservationId) with
  | none => .err db (.notFound "Reservation not found")
  | some r =>
    if r.status == "committed" then .err db .cannotRelease
    else
      .ok { db with reservations :=
              db.reservations.map (fun x => if x.id == r.id then { x with status := "released" } else x) }
        { r with status := "released" }

/-! ### Heuristic planner

Model of `src/backend/services/pathway_optimizer.py`.  Impure inputs are
explicit parameters: `today` is `(month, year)` of the current date used by
date fallbacks, `courses` is the list produced by `gather_pathway_courses`,
`prereq_map` is the map produced by `build_prereq_map`, `start_semester` is
the starting label after the controller-side fallback, and `dbOfferings` is
the `course_offerings` table. -/

/-- Row of the `course_prerequisite` table. -/
structure CoursePrerequisite where
  course_id : Nat
  prerequisite_id : Nat
deriving DecidableEq

/-- Row of the `courses` table (the fields the planner reads). -/
structure Course where
  id : Nat
  course_code : String
  name : String := ""
  credits : Option Int := none
deriving DecidableEq

/-- Row of the `student_preferences` table (the fields the planner reads). -/
structure StudentPreferences where
  max_credits_per_term : Option Int := none
  unavailable_days : Option String := none
  avoid_mornings : Bool := false
  avoid_evenings : Bool := false
  preferred_instructors : Option String := none
deriving DecidableEq

/-- Model of `build_prereq_map` (lines 45-59): course_code to the codes of
its prerequisites, via the id-to-code dictionary (ids are unique). -/
def build_prereq_map (dbCourses : List Course) (rels : List CoursePrerequisite)
    (code : String) : List String :=
  rels.filterMap (fun r =>
    match dbCourses.find? (fun c => c.id == r.course_id),
          dbCourses.find? (fun c => c.id == r.prerequisite_id) with
    | some cc, some pc => if cc.course_code == code then some pc.course_code else none
    | _, _ => none)

/-- The `code_to_course` dictionary (course codes are unique). -/
def code_to_course (courses : List Course) (code : String) : Option Course :=
  courses.find? (fun c => c.course_code == code)

/-- Model of the planner's `parse_days` helper (lines 149-159): uppercase,
rewrite `TR` to `R`, keep the known day letters.  The Python set is
represented as the resulting character list (only emptiness, membership and
disjointness are ever used). -/
def parse_days : Option String → List Char
  | none => []
  | some s =>
      if s = "" then []
      else (replaceTRChars (pyUpper (pyStrip s)).data).filter
        (fun ch => (['M', 'T', 'W', 'R', 'F', 'S', 'U'] : List Char).contains ch)

/-- Model of the planner's `parse_time` helper (lines 161-183): minutes
since midnight, `none` where Python returns `None` (which it also does on a
parse exception). -/
def parse_time : Option String → Option Int
  | none => none
  | some tm =>
      if tm = "" then none
      else
        let t := (pyUpper (pyStrip tm)).data
        if containsAMChars t || containsPMChars t then
          let meridianAM := containsAMChars t
          let tnum := (pyStrip ⟨removePMChars (removeAMChars t)⟩).data
          let hm : Option (Int × Int) :=
            match splitSepChars ':' tnum with
            | [] => none
            | [p0] => (pyInt ⟨p0⟩).map (fun h => (h, 0))
            | p0 :: p1 :: _ => do
                let h ← pyInt ⟨p0⟩
                let m ← pyInt ⟨p1⟩
                pure (h, m)
          hm.map (fun p =>
            let hour := if meridianAM = false ∧ p.1 ≠ 12 then p.1 + 12 else p.1
            let hour := if meridianAM = true ∧ hour = 12 then 0 else hour
            hour * 60 + p.2)
        else
          let hm : Option (Int × Int) :=
            match splitSepChars ':' t with
            | [] => none
            | [p0] => (pyInt ⟨p0⟩).map (fun h => (h, 0))
            | p0 :: p1 :: _ => do
                let h ← pyInt ⟨p0⟩
                let m ← pyInt ⟨p1⟩
                pure (h, m)
          hm.map (fun p => p.1 * 60 + p.2)

/-- Model of the planner's `times_conflict` helper (lines 185-198). -/
def times_conflict (a b : CourseOffering) : Bool :=
  let daysA := parse_days a.days
  let daysB := parse_days b.days
  if daysA.isEmpty || daysB.isEmpty then false
  else if daysA.all (fun d => !daysB.contains d) then false
  else
    match parse_time a.start_time, parse_time a.end_time,
          parse_time b.start_time, parse_time b.end_time with
    | some aS, some aE, some bS, some bE => !(decide (aE ≤ bS) || decide (bE ≤ aS))
    | _, _, _, _ => false

/-- Month-based term fallback used by `_next_semester_label` when the label
does not parse (lines 19-24). -/
def fallback_term_year (today : Int × Int) : String × Int :=
  if today.1 ≥ 8 then ("Fall", today.2)
  else if today.1 ≥ 5 then ("Summer", today.2)
  else ("Spring", today.2)

/-- Model of `_next_semester_label` (lines 13-42).  `order.index` and the
`order[next_idx]` lookup on the fixed list `["Fall", "Spring", "Summer"]`
are transcribed as the corresponding conditionals. -/
def next_semester_label (today : Int × Int) (currentLabel : String) : String :=
  let parsed : Option (String × Int) :=
    match pySplitWs currentLabel with
    | [t, ys] => (pyInt ys).map (fun y => (t, y))
    | _ => none
  let tY := match parsed with | some p => p | none => fallback_term_year today
  let term := tY.1
  let year := tY.2
  let term := if (["Fall", "Spring", "Summer"] : List String).contains term then term else "Fall"
  let idx : Nat := if term = "Fall" then 0 else if term = "Spring" then 1 else 2
  let nextIdx := (idx + 1) % 3
  let nextTerm := if nextIdx = 0 then "Fall" else if nextIdx = 1 then "Spring" else "Summer"
  let nextYear := if nextTerm = "Fall" ∧ nextIdx = 0 ∧ term = "Summer" then year + 1 else year
  let nextYear := if term = "Fall" ∧ nextTerm = "Spring" then year + 1 else nextYear
  let nextYear := if term = "Spring" ∧ nextTerm = "Summer" then year else nextYear
  let nextYear := if term = "Summer" ∧ nextTerm = "Fall" then year else nextYear
  nextTerm ++ " " ++ toString nextYear

/-- Interpreted preference fields (lines 204-218 of the planner). -/
structure PrefContext where
  prefMaxCredits : Option Int
  prefUnavailableDays : List Char
  prefAvoidMornings : Bool
  prefAvoidEvenings : Bool
  prefInstructors : List String
deriving DecidableEq

/-- Model of the comma-separated preferred-instructor set: strip, lowercase,
drop empties. -/
def parse_instructor_set (s : String) : List String :=
  (splitSepChars ',' s.data).filterMap (fun w =>
    let t := pyStrip ⟨w⟩
    if t = "" then none else some (pyLower t))

/-- Interpretation of the loaded `StudentPreferences` row (lines 204-218);
Python truthiness makes `0`, `None` and `""` all count as unset. -/
def interpret_preferences : Option StudentPreferences → PrefContext
  | none => ⟨none, [], false, false, []⟩
  | some p =>
      { prefMaxCredits :=
          match p.max_credits_per_term with
          | some v => if v = 0 then none else some v
          | none => none,
        prefUnavailableDays :=
          match p.unavailable_days with
          | some d => if d = "" then [] else parse_days (some d)
          | none => [],
        prefAvoidMornings := p.avoid_mornings,
        prefAvoidEvenings := p.avoid_evenings,
        prefInstructors :=
          match p.preferred_instructors with
          | some s => if s = "" then [] else parse_instructor_set s
          | none => [] }

/-- The `has_space` candidate key of `offered_this_term` (lines 261-266). -/
def has_space (off : CourseOffering) : Nat :=
  match off.capacity with
  | none => 1
  | some capacity =>
      match off.enrolled with
      | none => 1
      | some enrolled => if enrolled < capacity then 1 else 0

/-- The `instructor_score` candidate key of `offered_this_term`
(lines 253-257). -/
def instructor_score (prefInstructors : List String) (off : CourseOffering) : Nat :=
  if prefInstructors.isEmpty then 0
  else if prefInstructors.contains (pyLower (pyStrip (off.instructor.getD ""))) then 1 else 0

/-- Combined sort key for offering candidates: both components are 0/1, so
the pair `(has_space, instructor_score)` in descending lexicographic order
is exactly descending order of `2 * has_space + instructor_score`. -/
def offering_key (prefInstructors : List String) (off : CourseOffering) : Nat :=
  2 * has_space off + instructor_score prefInstructors off

/-- Model of `offered_this_term` (lines 222-278): exact-year candidates
first, then recurring ones; stable sort descending by
`(has_space, instructor_score)`; return the top candidate if it has space
or overfull is allowed. -/
def offered_this_term (dbOfferings : List CourseOffering)
    (codeToCourse : String → Option Course) (prefInstructors : List String)
    (allowOverfull : Bool) (code : String) (semLabel : String) :
    Option CourseOffering :=
  let tY : String × Option Int :=
    match pySplitWs semLabel with
    | [t, ys] =>
        match pyInt ys with
        | some y => (t, some y)
        | none => (semLabel, none)
    | _ => (semLabel, none)
  match codeToCourse code with
  | none => none
  | some course =>
      let exact :=
        match tY.2 with
        | some y => dbOfferings.filter (fun o =>
            o.course_id == course.id && o.year == some y && o.term == tY.1)
        | none => []
      let recurring := dbOfferings.filter (fun o =>
        o.course_id == course.id && o.year == none && o.term == tY.1)
      let candidates := exact ++ recurring
      match List.insertionSort
          (fun a b => offering_key prefInstructors b ≤ offering_key prefInstructors a)
          candidates with
      | [] => none
      | top :: _ => if has_space top ≠ 0 ∨ allowOverfull = true then some top else none

/-- A packer candidate `(code, offering, weighted_credits)` (line 295). -/
abbrev Candidate := String × CourseOffering × ℚ

/-- Weighted credits of a candidate. -/
def cand_credit (c : Candidate) : ℚ := c.2.2

/-- The `best_set / best_credit` update performed on entry to `dfs`
(line 333 resp. line 474); the load-balancing variant additionally requires
`cur_credit ≤ cap`, which `capAtUpdate` switches on. -/
def dfs_update (capAtUpdate : Bool) (cap : ℚ) (best : List Candidate × ℚ)
    (cur : List Candidate) (curCredit : ℚ) : List Candidate × ℚ :=
  if curCredit > best.2 ∧ (capAtUpdate = false ∨ curCredit ≤ cap) then (cur, curCredit) else best

/-- The `for j in range(idx, n)` loop of `dfs` (lines 338-351 resp.
479-492): the remaining candidate suffix is the list argument; a feasible
extension first recurses on the extended selection (performing the entry
update of the inner `dfs` call), then the loop continues. -/
def dfs_loop (capAtUpdate : Bool) (cap : ℚ) :
    List Candidate → List Candidate → ℚ → List Candidate × ℚ → List Candidate × ℚ
  | [], _, _, best => best
  | cand :: rest, cur, curCredit, best =>
      if decide (curCredit + cand_credit cand > cap) ||
         cur.any (fun p => times_conflict cand.2.1 p.2.1) then
        dfs_loop capAtUpdate cap rest cur curCredit best
      else
        dfs_loop capAtUpdate cap rest cur curCredit
          (dfs_loop capAtUpdate cap rest (cur ++ [cand]) (curCredit + cand_credit cand)
            (dfs_update capAtUpdate cap best (cur ++ [cand]) (curCredit + cand_credit cand)))

/-- The top-level call `dfs(0, [], 0)` with `best_set = []`,
`best_credit = 0`. -/
def dfs_run (capAtUpdate : Bool) (cap : ℚ) (cands : List Candidate) :
    List Candidate × ℚ :=
  dfs_loop capAtUpdate cap cands [] 0 (dfs_update capAtUpdate cap ([], 0) [] 0)

/-- Candidate selection for one term (lines 324-354 resp. 466-494): sort by
weighted credits descending (stable) and run the backtracking search. -/
def select_term_candidates (capAtUpdate : Bool) (cap : ℚ)
    (candidates : List Candidate) : List Candidate :=
  if candidates.isEmpty then []
  else (dfs_run capAtUpdate cap
    (List.insertionSort (fun a b => cand_credit b ≤ cand_credit a) candidates)).1

/-- Candidate construction for one term (lines 296-321 resp. 441-464):
preference hard filters, fullness filter, and the 0.1 preferred-instructor
bonus on the weighted credits. -/
def build_candidates (codeToCourse : String → Option Course) (pc : PrefContext)
    (allowOverfull : Bool) (offeredNow : List (String × CourseOffering)) :
    List Candidate :=
  offeredNow.filterMap (fun cw =>
    let code := cw.1
    let offering := cw.2
    match codeToCourse code with
    | none => none
    | some c =>
        if !pc.prefUnavailableDays.isEmpty &&
           !((parse_days offering.days).all (fun d => !pc.prefUnavailableDays.contains d)) then
          none
        else
          let st := parse_time offering.start_time
          if pc.prefAvoidMornings &&
             (match st with | some v => decide (v < 10 * 60) | none => false) then none
          else if pc.prefAvoidEvenings &&
             (match st with | some v => decide (v ≥ 18 * 60) | none => false) then none
          else
            let isFull :=
              match offering.capacity, offering.enrolled with
              | some capacity, some enrolled => decide (enrolled ≥ capacity)
              | _, _ => false
            if isFull && !allowOverfull then none
            else
              let bonus : ℚ :=
                if !pc.prefInstructors.isEmpty &&
                   pc.prefInstructors.contains (pyLower (pyStrip (offering.instructor.getD ""))) then
                  1 / 10
                else 0
              some (code, offering, ((c.credits.getD 0 : Int) : ℚ) + bonus))

/-- Offering snapshot embedded in a plan entry (lines 362-373). -/
structure OfferingInfo where
  id : Nat
  sectionLabel : Option String
  days : Option String
  start_time : Option String
  end_time : Option String
  instructor : Option String
  location : Option String
  capacity : Option Int
  enrolled : Option Int
  status : String
deriving DecidableEq

/-- Snapshot of an offering with its `confirmed`/`full` status. -/
def offering_info (off : CourseOffering) : OfferingInfo :=
  { id := off.id, sectionLabel := off.sectionLabel, days := off.days,
    start_time := off.start_time, end_time := off.end_time,
    instructor := off.instructor, location := off.location,
    capacity := off.capacity, enrolled := off.enrolled,
    status :=
      match off.capacity, off.enrolled with
      | none, _ => "confirmed"
      | some _, none => "confirmed"
      | some capacity, some enrolled => if enrolled < capacity then "confirmed" else "full" }

/-- One course entry of a term plan. -/
structure PlanCourse where
  course_code : String
  name : String
  credits : Option Int
  offering : OfferingInfo
deriving DecidableEq

/-- One term of a produced plan. -/
structure TermPlan where
  semester : String
  courses : List PlanCourse
  total_credits : Int
deriving DecidableEq

/-- Emission of the selected candidates of one term (lines 356-384 resp.
495-524): skip full offerings unless overfull is allowed, snapshot the
offering before the `reserve_seats` increment, and thread the offerings
table through the in-memory `enrolled` bumps. -/
def emit_selected (codeToCourse : String → Option Course)
    (allowOverfull reserveSeats : Bool) :
    List Candidate → List CourseOffering →
    List PlanCourse × Int × List CourseOffering
  | [], dbOff => ([], 0, dbOff)
  | cand :: rest, dbOff =>
      let code := cand.1
      let offering := cand.2.1
      match codeToCourse code with
      | none => emit_selected codeToCourse allowOverfull reserveSeats rest dbOff
      | some c =>
          let info := offering_info offering
          if info.status == "full" && !allowOverfull then
            emit_selected codeToCourse allowOverfull reserveSeats rest dbOff
          else
            let dbOff' :=
              if reserveSeats && !(offering.enrolled == none) then
                dbOff.map (fun o =>
                  if o.id == offering.id then { o with enrolled := o.enrolled.map (· + 1) } else o)
              else dbOff
            let tail := emit_selected codeToCourse allowOverfull reserveSeats rest dbOff'
            ({ course_code := code, name := c.name, credits := c.credits,
               offering := info } :: tail.1,
             c.credits.getD 0 + tail.2.1, tail.2.2)

/-- The greedy per-term scheduling loop (lines 284-402); the fuel is
`max_terms - term_count`.  Marking the emitted courses completed (lines
396-399) is the fold over `semester_courses`. -/
def greedy_loop (today : Int × Int) (codeToCourse : String → Option Course)
    (prereq_map : String → List String) (pc : PrefContext) (effMaxCredits : Int)
    (allowOverfull reserveSeats : Bool) :
    Nat → List String → List String → String → List CourseOffering → List TermPlan
  | 0, _, _, _, _ => []
  | fuel + 1, completed, remaining, semLabel, dbOff =>
      if remaining.isEmpty then []
      else
        let eligible := remaining.filter (fun code =>
          (prereq_map code).all (fun p => completed.contains p))
        let offeredNow := eligible.filterMap (fun code =>
          (offered_this_term dbOff codeToCourse pc.prefInstructors allowOverfull
            code semLabel).map (fun off => (code, off)))
        let candidates := build_candidates codeToCourse pc allowOverfull offeredNow
        let selected := select_term_candidates false (effMaxCredits : ℚ) candidates
        let emitted := emit_selected codeToCourse allowOverfull reserveSeats selected dbOff
        if emitted.1.isEmpty then
          if eligible.isEmpty then []
          else
            greedy_loop today codeToCourse prereq_map pc effMaxCredits allowOverfull
              reserveSeats fuel completed remaining
              (next_semester_label today semLabel) dbOff
        else
          { semester := semLabel, courses := emitted.1, total_credits := emitted.2.1 } ::
            greedy_loop today codeToCourse prereq_map pc effMaxCredits allowOverfull
              reserveSeats fuel
              (emitted.1.foldl (fun acc sc => acc.insert sc.course_code) completed)
              (emitted.1.foldl (fun acc sc => acc.erase sc.course_code) remaining)
              (next_semester_label today semLabel) emitted.2.2

/-- The `target_credits` computation of the load-balancing mode (lines
423-428); Python `//` is floor division. -/
def target_credits_calc (effMaxCredits totalCredits : Int) (nTerms : Nat) : Int :=
  if nTerms > 0 then
    min effMaxCredits (max 1 (Int.fdiv (totalCredits + nTerms - 1) nTerms))
  else effMaxCredits

/-- The load-balancing per-term loop (lines 431-526): every term emits a
plan entry (possibly empty); the in-loop `scheduled.add` calls (line 524)
are folded after emission, which is equivalent because `scheduled` is not
read again until the next term. -/
def lb_loop (today : Int × Int) (codeToCourse : String → Option Course)
    (courseCodes : List String) (prereq_map : String → List String)
    (pc : PrefContext) (targetCredits : Int) (allowOverfull reserveSeats : Bool) :
    Nat → List String → String → List CourseOffering → List TermPlan
  | 0, _, _, _ => []
  | fuel + 1, scheduled, semLabel, dbOff =>
      let eligible := courseCodes.filter (fun code =>
        !scheduled.contains code && (prereq_map code).all (fun p => scheduled.contains p))
      let offeredNow := eligible.filterMap (fun code =>
        (offered_this_term dbOff codeToCourse pc.prefInstructors allowOverfull
          code semLabel).map (fun off => (code, off)))
      let candidates := build_candidates codeToCourse pc allowOverfull offeredNow
      let selected := select_term_candidates true (targetCredits : ℚ) candidates
      let emitted := emit_selected codeToCourse allowOverfull reserveSeats selected dbOff
      { semester := semLabel, courses := emitted.1, total_credits := emitted.2.1 } ::
        lb_loop today codeToCourse courseCodes prereq_map pc targetCredits
          allowOverfull reserveSeats fuel
          (emitted.1.foldl (fun acc sc => acc.insert sc.course_code) scheduled)
          (next_semester_label today semLabel) emitted.2.2

/-- Model of `optimize_pathway` (lines 92-527).  The pathway resolution,
the prerequisite-map construction and the start-semester fallback are the
`courses`, `prereq_map` and `start_semester` parameters. -/
def optimize_pathway (today : Int × Int) (courses : List Course)
    (prereq_map : String → List String) (dbOfferings : List CourseOffering)
    (completed_course_codes : List String) (max_credits_per_semester : Int)
    (start_semester : String) (max_terms : Nat)
    (allow_overfull reserve_seats balance_load : Bool)
    (preferences : Option StudentPreferences) : List TermPlan :=
  if courses.isEmpty then []
  else
    let codeToCourse := code_to_course courses
    let completed := completed_course_codes
    let courseCodes := (courses.map (fun c => c.course_code)).dedup
    let remaining := courseCodes.filter (fun code => !completed.contains code)
    let pc := interpret_preferences preferences
    let effMax : Int := pc.prefMaxCredits.getD max_credits_per_semester
    if balance_load = false then
      greedy_loop today codeToCourse prereq_map pc effMax allow_overfull reserve_seats
        max_terms completed remaining start_semester dbOfferings
    else
      let totalCredits :=
        ((courseCodes.filterMap codeToCourse).filter
          (fun c => !completed.contains c.course_code)).foldl
          (fun acc c => acc + c.credits.getD 0) 0
      let targetCredits := target_credits_calc effMax totalCredits max_terms
      lb_loop today codeToCourse courseCodes prereq_map pc targetCredits
        allow_overfull reserve_seats max_terms completed start_semester dbOfferings

/-! ### Exact (CP-SAT) planner

Model of the constraint construction of
`src/backend/services/global_optimizer.py` (the external CP-SAT solver
itself is out of scope; the claims concern the generated constraints). -/

/-- Model of `_next_sem_label` (lines 13-33 of the exact planner).
`todayYear` stands for `datetime.today().year` used when the label has
fewer than two words; a `None` year is printed as the string `None` by the
final f-string, exactly as in Python. -/
def next_sem_label (todayYear : Int) (label : String) : String :=
  let tY : String × Option Int :=
    match pySplitWs label with
    | t :: ys :: _ => (t, pyInt ys)
    | _ => ("Fall", some todayYear)
  let term := if (["Fall", "Spring", "Summer"] : List String).contains tY.1 then tY.1 else "Fall"
  let idx : Nat := if term = "Fall" then 0 else if term = "Spring" then 1 else 2
  let nextIdx := (idx + 1) % 3
  let nextTerm := if nextIdx = 0 then "Fall" else if nextIdx = 1 then "Spring" else "Summer"
  let nextYear := if term = "Fall" ∧ nextTerm = "Spring" ∧ tY.2 ≠ none then tY.2.map (· + 1) else tY.2
  nextTerm ++ " " ++ (match nextYear with | some y => toString y | none => "None")

/-- Successive term labels after `last` (the loop of lines 89-91). -/
def terms_aux (todayYear : Int) : Nat → String → List String
  | 0, _ => []
  | k + 1, last =>
      let nxt := next_sem_label todayYear last
      nxt :: terms_aux todayYear k nxt

/-- The `terms` list of `optimize_pathway_exact` (lines 89-91): the start
label followed by `max_terms - 1` successors. -/
def terms_list (todayYear : Int) (sem0 : String) (maxTerms : Nat) : List String :=
  sem0 :: terms_aux todayYear (maxTerms - 1) sem0

/-- Availability of a course in a term (lines 93-124): some offering exists
for the term and has space (null capacity or null enrolled or
`enrolled < capacity`), or overfull is allowed. -/
def offering_available (dbOfferings : List CourseOffering)
    (codeToCourse : String → Option Course) (allowOverfull : Bool)
    (code : String) (semLabel : String) : Bool :=
  let tY : String × Option Int :=
    match pySplitWs semLabel with
    | [t, ys] =>
        match pyInt ys with
        | some y => (t, some y)
        | none => (semLabel, none)
    | _ => (semLabel, none)
  match codeToCourse code with
  | none => false
  | some course =>
      let exact :=
        match tY.2 with
        | some y => dbOfferings.filter (fun o =>
            o.course_id == course.id && o.year == some y && o.term == tY.1)
        | none => []
      let recurring := dbOfferings.filter (fun o =>
        o.course_id == course.id && o.year == none && o.term == tY.1)
      let cand := exact ++ recurring
      if cand.isEmpty then false
      else
        let ok := cand.any (fun off =>
          match off.capacity with
          | none => true
          | some capacity =>
              match off.enrolled with
              | none => true
              | some enrolled => decide (enrolled < capacity))
        ok || allowOverfull

/-- Existence of the decision variable `x[(code, t)]` (lines 128-135): a
variable is created exactly for remaining courses at available terms. -/
def var_exists (dbOfferings : List CourseOffering)
    (codeToCourse : String → Option Course) (allowOverfull : Bool)
    (remainingCodes : List String) (terms : List String)
    (code : String) (t : Nat) : Bool :=
  remainingCodes.contains code &&
    (match terms[t]? with
     | some lbl => offering_available dbOfferings codeToCourse allowOverfull code lbl
     | none => false)

/-- A prerequisite constraint attached to one variable `x[(code, t)]`. -/
inductive PrereqConstraint where
  | forcedZero
  | leSum (vars : List (String × Nat))
deriving DecidableEq

/-- Model of the prerequisite-constraint construction of
`optimize_pathway_exact` (lines 143-164) for one `(code, t)`:
prerequisites are first filtered to those in `remaining_codes` or in the
pathway's `code_to_course` dictionary; with no surviving prerequisite no
constraint is added; otherwise, if some prerequisite variable exists at an
earlier term the constraint is `x ≤ Σ x[p, s]`, else `x = 0`. -/
def prereq_constraint_for (prereqMap : String → List String)
    (remainingCodes : List String) (codeToCourse : String → Option Course)
    (hasVar : String → Nat → Bool) (code : String) (t : Nat) :
    Option PrereqConstraint :=
  let prereqs := (prereqMap code).filter (fun p =>
    remainingCodes.contains p || (codeToCourse p).isSome)
  if prereqs.isEmpty then none
  else if !(hasVar code t) then none
  else
    let prereqVars := prereqs.flatMap (fun p =>
      (List.range t).filterMap (fun s => if hasVar p s then some (p, s) else none))
    if prereqVars.isEmpty then some .forcedZero
    else some (.leSum prereqVars)

/-- Formatting of a term label, as both successor functions produce it. -/
def term_label (t : String) (y : Int) : String :=
  t ++ " " ++ toString y

/-! ### Concrete instances for the exact-planner claim -/

/-- The single pathway course of the C5 instance; its only prerequisite
`MATH9` is outside the pathway and not completed. -/
def c5course : Course := { id := 1, course_code := "CS2", name := "CS2", credits := some 3 }

/-- A recurring Fall offering of `CS2`. -/
def c5off : CourseOffering := { id := 1, course_id := 1, term := "Fall", year := none }

/-- Four term labels starting from Fall 2025. -/
def c5terms : List String := terms_list 2025 "Fall 2025" 4

/-- Variable-existence function of the C5 instance. -/
def c5hasVar : String → Nat → Bool :=
  var_exists [c5off] (code_to_course [c5course]) false ["CS2"] c5terms

/-- Prerequisite map of the C5 instance: CS2 requires MATH9. -/
def c5pm : String → List String := fun c => if c = "CS2" then ["MATH9"] else []

/-! ### Schedule scorer

Model of `src/backend/services/score.py`.  Two notes on the source text:
lines 149-158 of `score.py` are indented one level deeper than the
surrounding assignments (as written the module does not even import:
Python raises an IndentationError); they are modelled at function level,
the minimal reading that parses.  The blocks of lines 218-302 (time-window,
preferred day/location/time-of-day, max-days, gap and contiguity
adjustments) are indented under `if preferred_instructors:` (line 210) and
are modelled as nested under that test, matching the source indentation.
The scorer is modelled for `db = None` (no rating store), and a
caller-supplied weights dict is modelled as a full record. -/

/-- A course-like record as consumed by `score_courses`. -/
structure ScoreCourse where
  id : Nat
  course_code : String
  semester : Option String := none
  days_of_week : Option String := none
  start_time : Option String := none
  end_time : Option String := none
  instructor : Option String := none
  location : Option String := none
deriving DecidableEq

/-- Python `datetime.time` restricted to the fields the scorer reads. -/
structure PyTime where
  hour : Nat
  minute : Nat
  second : Nat
deriving DecidableEq

/-- Seconds since midnight; for valid times the `datetime.time` ordering is
this ordering. -/
def PyTime.toSec (t : PyTime) : Nat :=
  t.hour * 3600 + t.minute * 60 + t.second

/-- Model of `_to_time_obj` (lines 6-18) on string inputs: `HH:MM[:SS]`;
an unparsable or out-of-range string raises in Python and is modelled as
`none`. -/
def to_time_obj : Option String → Option PyTime
  | none => none
  | some s =>
      match splitSepChars ':' s.data with
      | [] => none
      | p0 :: rest => do
          let h ← pyInt ⟨p0⟩
          let m ← match rest with
            | [] => some (0 : Int)
            | p1 :: _ => pyInt ⟨p1⟩
          let sec ← match rest with
            | _ :: p2 :: _ => pyInt ⟨p2⟩
            | _ => some (0 : Int)
          if 0 ≤ h ∧ h < 24 ∧ 0 ≤ m ∧ m < 60 ∧ 0 ≤ sec ∧ sec < 60 then
            some ⟨h.toNat, m.toNat, sec.toNat⟩
          else none

/-- Truthiness of an optional string (Python: `None` and `""` are falsy). -/
def truthyStr : Option String → Bool
  | none => false
  | some s => !(s == "")

/-- Model of `has_day_overlap` (lines 21-24). -/
def has_day_overlap (days1 days2 : String) : Bool :=
  if days1 == "" || days2 == "" then false
  else (pyUpper days1).data.any (fun c => (pyUpper days2).data.contains c)

/-- Model of `has_time_overlap` (lines 27-34). -/
def has_time_overlap (start1 end1 start2 end2 : Option String) : Bool :=
  match to_time_obj start1, to_time_obj end1, to_time_obj start2, to_time_obj end2 with
  | some s1, some e1, some s2, some e2 =>
      decide (s1.toSec < e2.toSec) && decide (s2.toSec < e1.toSec)
  | _, _, _, _ => false

/-- Model of `minutes_between` (lines 37-44): floor of the difference in
minutes (Python `//` floor division), 0 when either time is missing. -/
def minutes_between (t1 t2 : Option String) : Int :=
  match to_time_obj t1, to_time_obj t2 with
  | some a, some b => Int.fdiv ((b.toSec : Int) - (a.toSec : Int)) 60
  | _, _ => 0

/-- Scorer weights with their defaults (lines 61-80). -/
structure ScoreWeights where
  conflict_penalty : ℚ := 1000
  gap_penalty_per_minute : ℚ := 1 / 2
  rating_weight : ℚ := 20
  day_penalty_per_day : ℚ := 75
  compactness_reward : ℚ := 50
  base : ℚ := 500
  unavailable_day_penalty : ℚ := 500
  avoid_morning_penalty : ℚ := 150
  avoid_evening_penalty : ℚ := 150
  preferred_instructor_reward : ℚ := 75
  outside_window_penalty : ℚ := 200
  max_days_penalty : ℚ := 100
  preferred_day_reward : ℚ := 50
  max_gaps_penalty : ℚ := 1
  contiguous_bonus : ℚ := 100
  preferred_location_reward : ℚ := 50
  preferred_time_reward : ℚ := 50
deriving DecidableEq

/-- The preferences dict of the scorer (the recognized keys). -/
structure ScorePrefs where
  avoid_mornings : Bool := false
  avoid_evenings : Bool := false
  unavailable_days : Option String := none
  preferred_instructors : Option String := none
  earliest_start_time : Option String := none
  latest_end_time : Option String := none
  max_days_per_week : Option Int := none
  preferred_days : Option String := none
  max_gaps_per_day : Option Int := none
  contiguous_classes : Bool := false
  preferred_locations : Option String := none
  preferred_time_of_day : Option String := none
deriving DecidableEq

/-- One detected conflict (lines 98-100). -/
structure ConflictEntry where
  course1 : String
  course2 : String
  days : String
deriving DecidableEq

/-- One entry of `breakdown.preference_adjustments`; the heterogeneous
Python dicts are modelled as one record with optional fields. -/
structure PrefAdjustment where
  course : Option String := none
  day : Option String := none
  reason : Option String := none
  penalty : Option ℚ := none
  reward : Option ℚ := none
  excess_days : Option Int := none
  over_minutes : Option Int := none
  bonus : Option ℚ := none
  total_gaps : Option Int := none
deriving DecidableEq

/-- Net score effect of one adjustment entry: the source subtracts each
penalty and adds each reward or bonus as it appends the entry. -/
def adj_delta (a : PrefAdjustment) : ℚ :=
  a.reward.getD 0 + a.bonus.getD 0 - a.penalty.getD 0

/-- The `breakdown` dict of the scorer. -/
structure ScoreBreakdown where
  base : ℚ
  conflict_count : Nat
  conflicts : List ConflictEntry
  total_gaps_minutes : Int
  distinct_days : Nat
  compactness_bonus : ℚ
  avg_rating : Option ℚ
  preference_adjustments : List PrefAdjustment
deriving DecidableEq

/-- The scorer's result. -/
structure ScoreResult where
  score : ℚ
  breakdown : ScoreBreakdown
  weights : ScoreWeights
deriving DecidableEq

/-- Whether a course has days, start and end set (the completeness test of
lines 93-96). -/
def score_course_complete (c : ScoreCourse) : Bool :=
  truthyStr c.days_of_week && truthyStr c.start_time && truthyStr c.end_time

/-- Conflict check for one ordered pair (lines 85-100). -/
def conflict_pair (c1 c2 : ScoreCourse) : Option ConflictEntry :=
  if c1.id == c2.id then none
  else if truthyStr c1.semester && truthyStr c2.semester && !(c1.semester == c2.semester) then none
  else if !(score_course_complete c1) then none
  else if !(score_course_complete c2) then none
  else if has_day_overlap (c1.days_of_week.getD "") (c2.days_of_week.getD "") &&
          has_time_overlap c1.start_time c1.end_time c2.start_time c2.end_time then
    some { course1 := c1.course_code, course2 := c2.course_code,
           days := ⟨List.insertionSort (fun a b => a ≤ b)
             (((pyUpper (c1.days_of_week.getD "")).data.filter
               (fun c => (pyUpper (c2.days_of_week.getD "")).data.contains c)).dedup)⟩ }
  else none

/-- The nested conflict loop (lines 84-100): `i` outer, `j > i` inner. -/
def conflict_list : List ScoreCourse → List ConflictEntry
  | [] => []
  | c1 :: rest => rest.filterMap (conflict_pair c1) ++ conflict_list rest

/-- The courses meeting on a given day with times set (line 108 resp.
line 276), sorted by start time (stable, missing times sort as midnight). -/
def day_courses_sorted (courses : List ScoreCourse) (day : Char) : List ScoreCourse :=
  List.insertionSort
    (fun a b => ((to_time_obj a.start_time).getD ⟨0, 0, 0⟩).toSec ≤
                ((to_time_obj b.start_time).getD ⟨0, 0, 0⟩).toSec)
    (courses.filter (fun c => truthyStr c.days_of_week &&
      (pyUpper (c.days_of_week.getD "")).data.contains day &&
      truthyStr c.start_time && truthyStr c.end_time))

/-- Positive gaps between consecutive courses of one day (lines 117-120). -/
def day_gaps (courses : List ScoreCourse) (day : Char) : Int :=
  let sorted := day_courses_sorted courses day
  (sorted.zip sorted.tail).foldl (fun acc ab =>
    let gap := minutes_between ab.1.end_time ab.2.start_time
    if gap > 0 then acc + gap else acc) 0

/-- Total gap minutes over the week `MTWRFS` (lines 105-120). -/
def total_gaps_minutes (courses : List ScoreCourse) : Int :=
  ("MTWRFS".data).foldl (fun acc day => acc + day_gaps courses day) 0

/-- Distinct weekday letters (of `MTWRF`) used by the courses
(lines 161-167). -/
def distinct_days_count (courses : List ScoreCourse) : Nat :=
  (("MTWRF".data).filter (fun d => courses.any (fun c =>
    truthyStr c.days_of_week && (pyUpper (c.days_of_week.getD "")).data.contains d))).length

/-- Gaps per day for the days that have courses, in `MTWRFS` order
(lines 272-285). -/
def gaps_by_day (courses : List ScoreCourse) : List (Char × Int) :=
  ("MTWRFS".data).filterMap (fun day =>
    if (day_courses_sorted courses day).isEmpty then none
    else some (day, day_gaps courses day))

set_option maxHeartbeats 2000000 in
/-- Model of `score_courses` (lines 47-317) for `db = None`. -/
def score_courses (courses : List ScoreCourse) (weightsIn : Option ScoreWeights)
    (preferences : Option ScorePrefs) : ScoreResult :=
  let w := weightsIn.getD {}
  let conflicts := conflict_list courses
  let conflictCount := conflicts.length
  let totalGaps := total_gaps_minutes courses
  let prefs := preferences.getD {}
  let avoidMornings := prefs.avoid_mornings
  let avoidEvenings := prefs.avoid_evenings
  let unavailableDays := prefs.unavailable_days.getD ""
  let preferredInstructors := parse_instructor_set (prefs.preferred_instructors.getD "")
  let earliest := to_time_obj prefs.earliest_start_time
  let latest := to_time_obj prefs.latest_end_time
  let maxDaysPerWeek := prefs.max_days_per_week
  let preferredDays := prefs.preferred_days.getD ""
  let maxGapsPerDay := prefs.max_gaps_per_day
  let contiguousClasses := prefs.contiguous_classes
  let preferredLocations := parse_instructor_set (prefs.preferred_locations.getD "")
  let preferredTimeOfDay := pyLower (prefs.preferred_time_of_day.getD "")
  let distinctDays := distinct_days_count courses
  let compactnessBonus := (((5 : Int) - distinctDays).toNat : ℚ) * w.compactness_reward
  let unavailableAdjs : List PrefAdjustment :=
    if unavailableDays == "" then []
    else courses.filterMap (fun c =>
      if truthyStr c.days_of_week &&
         (pyUpper unavailableDays).data.any (fun d => (pyUpper (c.days_of_week.getD "")).data.contains d) then
        some { course := some c.course_code, reason := some "unavailable_day",
               penalty := some w.unavailable_day_penalty }
      else none)
  let morningAdjs : List PrefAdjustment :=
    if avoidMornings then
      courses.filterMap (fun c =>
        match to_time_obj c.start_time with
        | some st =>
            if st.hour < 10 then
              some { course := some c.course_code, reason := some "avoid_morning",
                     penalty := some w.avoid_morning_penalty }
            else none
        | none => none)
    else []
  let eveningAdjs : List PrefAdjustment :=
    if avoidEvenings then
      courses.filterMap (fun c =>
        match to_time_obj c.end_time with
        | some et =>
            if et.hour ≥ 18 then
              some { course := some c.course_code, reason := some "avoid_evening",
                     penalty := some w.avoid_evening_penalty }
            else none
        | none => none)
    else []
  let instructorAdjs : List PrefAdjustment :=
    if preferredInstructors.isEmpty then []
    else courses.filterMap (fun c =>
      match c.instructor with
      | some instr =>
          if instr ≠ "" ∧ preferredInstructors.contains (pyLower (pyStrip instr)) then
            some { course := some c.course_code, reason := some "preferred_instructor",
                   reward := some w.preferred_instructor_reward }
          else none
      | none => none)
  let nestedAdjs : List PrefAdjustment :=
    if preferredInstructors.isEmpty then []
    else
      let windowAdjs : List PrefAdjustment :=
        if earliest.isSome || latest.isSome then
          courses.flatMap (fun c =>
            let st := to_time_obj c.start_time
            let et := to_time_obj c.end_time
            (match earliest, st with
             | some e, some s =>
                 if s.toSec < e.toSec then
                   [{ course := some c.course_code, reason := some "starts_before_earliest",
                      penalty := some w.outside_window_penalty }]
                 else []
             | _, _ => []) ++
            (match latest, et with
             | some l, some e2 =>
                 if e2.toSec > l.toSec then
                   [{ course := some c.course_code, reason := some "ends_after_latest",
                      penalty := some w.outside_window_penalty }]
                 else []
             | _, _ => []))
        else []
      let dayAdjs : List PrefAdjustment :=
        if preferredDays == "" then []
        else courses.filterMap (fun c =>
          if truthyStr c.days_of_week &&
             (pyUpper preferredDays).data.any (fun d => (pyUpper (c.days_of_week.getD "")).data.contains d) then
            some { course := some c.course_code, reason := some "preferred_day",
                   reward := some w.preferred_day_reward }
          else none)
      let locationAdjs : List PrefAdjustment :=
        if preferredLocations.isEmpty then []
        else courses.filterMap (fun c =>
          match c.location with
          | some loc =>
              if loc ≠ "" ∧ preferredLocations.contains (pyLower (pyStrip loc)) then
                some { course := some c.course_code, reason := some "preferred_location",
                       reward := some w.preferred_location_reward }
              else none
          | none => none)
      let timeAdjs : List PrefAdjustment :=
        if preferredTimeOfDay == "" then []
        else courses.flatMap (fun c =>
          match to_time_obj c.start_time with
          | none => []
          | some st =>
              (if preferredTimeOfDay == "morning" && decide (st.hour < 12) then
                [{ course := some c.course_code, reason := some "preferred_time_morning",
                   reward := some w.preferred_time_reward }]
              else []) ++
              (if preferredTimeOfDay == "afternoon" && decide (st.hour ≥ 12) then
                [{ course := some c.course_code, reason := some "preferred_time_afternoon",
                   reward := some w.preferred_time_reward }]
              else []))
      let maxDaysAdjs : List PrefAdjustment :=
        match maxDaysPerWeek with
        | some md =>
            if (distinctDays : Int) > md then
              [{ reason := some "exceeds_max_days", excess_days := some ((distinctDays : Int) - md),
                 penalty := some ((((distinctDays : Int) - md) : ℚ) * w.max_days_penalty) }]
            else []
        | none => []
      let gapAdjs : List PrefAdjustment :=
        if maxGapsPerDay.isSome || contiguousClasses then
          let gbd := gaps_by_day courses
          (match maxGapsPerDay with
           | some mg =>
               gbd.filterMap (fun dg =>
                 if dg.2 > mg then
                   some { day := some ⟨[dg.1]⟩, over_minutes := some (dg.2 - mg),
                          penalty := some (((dg.2 - mg : Int) : ℚ) * w.max_gaps_penalty) }
                 else none)
           | none => []) ++
          (if contiguousClasses then
            let totalG : Int := (gbd.map Prod.snd).foldl (· + ·) 0
            let bonus := max 0 (w.contiguous_bonus - (totalG : ℚ) * (2 / 10))
            if bonus > 0 then
              [{ reason := some "contiguous_bonus", bonus := some bonus, total_gaps := some totalG }]
            else []
          else [])
        else []
      windowAdjs ++ dayAdjs ++ locationAdjs ++ timeAdjs ++ maxDaysAdjs ++ gapAdjs
  let prefAdjs := unavailableAdjs ++ morningAdjs ++ eveningAdjs ++ instructorAdjs ++ nestedAdjs
  let score := w.base
    - (conflictCount : ℚ) * w.conflict_penalty
    - (totalGaps : ℚ) * w.gap_penalty_per_minute
    - (distinctDays : ℚ) * w.day_penalty_per_day
    + compactnessBonus
    + (prefAdjs.map adj_delta).foldl (· + ·) 0
  { score := score,
    breakdown :=
      { base := w.base, conflict_count := conflictCount, conflicts := conflicts,
        total_gaps_minutes := totalGaps, distinct_days := distinctDays,
        compactness_bonus := compactnessBonus, avg_rating := none,
        preference_adjustments := prefAdjs },
    weights := w }

/-! ### Concrete instances for the scorer claim -/

/-- A Monday-Wednesday-Friday morning course. -/
def c8course : ScoreCourse :=
  { id := 1, course_code := "CSCI-1000", semester := some "Fall 2025",
    days_of_week := some "MWF", start_time := some "09:00:00", end_time := some "10:00:00" }

/-- The same course taught by Smith. -/
def c8courseI : ScoreCourse := { c8course with instructor := some "Smith" }

/-- Preferences with only `preferred_days` set. -/
def c8prefs : ScorePrefs := { preferred_days := some "M" }

/-- Preferences with `preferred_days` and a matching preferred
instructor. -/
def c8prefsI : ScorePrefs := { preferred_days := some "M", preferred_instructors := some "Smith" }

/-- The early course of the repository's own window test
(`test_preferences_earliest_start_window`). -/
def c8early : ScoreCourse :=
  { id := 20, course_code := "ENG-1000", semester := some "Fall 2025",
    days_of_week := some "MWF", start_time := some "09:00:00", end_time := some "10:00:00" }

/-- The in-window course of the repository's own window test. -/
def c8ok : ScoreCourse :=
  { id := 21, course_code := "ENG-1010", semester := some "Fall 2025",
    days_of_week := some "MWF", start_time := some "10:30:00", end_time := some "11:45:00" }

/-- Preferences with only `earliest_start_time` set, as in the
repository's own window test. -/
def c8wprefs : ScorePrefs := { earliest_start_time := some "10:00:00" }

/-! ### Concrete instances for the reservation claims -/

/-- Offering with one seat left already taken (capacity 1, enrolled 1). -/
def c1off : CourseOffering := { id := 1, course_id := 1, capacity := some 1, enrolled := some 1 }

/-- A held, unexpired reservation on `c1off`. -/
def c1res : Reservation :=
  { id := 1, offering_id := 1, status := "held", created_at := some 0,
    expires_at := some 100, seats := some 1 }

/-- Database for the C1 witness. -/
def c1db : ResDB := { offerings := [c1off], reservations := [c1res] }

/-- Uncapped offering used by the C6 counterexample. -/
def c6off : CourseOffering := { id := 1, course_id := 1, capacity := none, enrolled := some 0 }

/-- A held reservation expiring exactly at time 100. -/
def c6res : Reservation :=
  { id := 1, offering_id := 1, status := "held", created_at := some 0,
    expires_at := some 100, seats := some 1 }

/-- Database for the C6 counterexample. -/
def c6db : ResDB := { offerings := [c6off], reservations := [c6res] }

/-- A held reservation that expired at time 10. -/
def c6wres : Reservation :=
  { id := 3, offering_id := 1, status := "held", created_at := some 0,
    expires_at := some 10, seats := some 1 }

/-- Database for the C6 witness. -/
def c6wdb : ResDB := { offerings := [c6off], reservations := [c6wres] }

/-- Uncapped offering used by the C7 instances. -/
def c7off : CourseOffering := { id := 1, course_id := 1, capacity := none, enrolled := some 0 }

/-- Database for the C7 instances. -/
def c7db : ResDB := { offerings := [c7off], reservations := [] }

/-- Offering with free seats for the C10 witness. -/
def c10off : CourseOffering := { id := 1, course_id := 1, capacity := some 5, enrolled := some 0 }

/-- A held, unexpired reservation on `c10off`. -/
def c10res : Reservation :=
  { id := 1, offering_id := 1, status := "held", created_at := some 0,
    expires_at := some 100, seats := some 1 }

/-- Database for the C10 witness. -/
def c10db : ResDB := { offerings := [c10off], reservations := [c10res] }

/-- State of `c10db` after committing reservation 1. -/
def c10dbAfter : ResDB :=
  { offerings := [{ c10off with enrolled := some 1 }],
    reservations := [{ c10res with status := "committed" }] }

/-! ### Concrete instances for the planner claims -/

def cand_credit_sum (l : List Candidate) : ℚ := (l.map cand_credit).sum

/-- Course A of the C2 witness chain. -/
def c2courseA : Course := { id := 1, course_code := "A", name := "Intro A", credits := some 3 }

/-- Course B (requires A) of the C2 witness chain. -/
def c2courseB : Course := { id := 2, course_code := "B", name := "Intro B", credits := some 3 }

/-- Recurring Fall offering of course A. -/
def c2offA : CourseOffering := { id := 10, course_id := 1, term := "Fall", year := none }

/-- Recurring Spring offering of course A. -/
def c2offA2 : CourseOffering := { id := 11, course_id := 1, term := "Spring", year := none }

/-- Recurring Spring offering of course B. -/
def c2offB : CourseOffering := { id := 12, course_id := 2, term := "Spring", year := none }

/-- Prerequisite map of the C2 witness: B requires A. -/
def c2pm : String → List String := fun c => if c = "B" then ["A"] else []

/-- A 16-credit course for the C3 counterexample. -/
def c3course : Course := { id := 1, course_code := "X", name := "Big X", credits := some 16 }

/-- Recurring Fall offering of the 16-credit course. -/
def c3off : CourseOffering := { id := 1, course_id := 1, term := "Fall", year := none }

/-- Stored preference cap of 18 credits, above the request cap of 15. -/
def c3prefs : StudentPreferences := { max_credits_per_term := some 18 }

/-- Course A of the C4 scenario (3 credits). -/
def c4courseA : Course := { id := 1, course_code := "A", name := "A", credits := some 3 }

/-- Course B of the C4 scenario (3 credits). -/
def c4courseB : Course := { id := 2, course_code := "B", name := "B", credits := some 3 }

/-- Fall offering of course A taught by the preferred instructor. -/
def c4offA : CourseOffering := { id := 21, course_id := 1, term := "Fall", year := none, instructor := some "Smith" }

/-- Spring offering of course A taught by the preferred instructor. -/
def c4offA2 : CourseOffering := { id := 22, course_id := 1, term := "Spring", year := none, instructor := some "Smith" }

/-- Fall offering of course B taught by the preferred instructor. -/
def c4offB : CourseOffering := { id := 23, course_id := 2, term := "Fall", year := none, instructor := some "Smith" }

/-- Spring offering of course B taught by the preferred instructor. -/
def c4offB2 : CourseOffering := { id := 24, course_id := 2, term := "Spring", year := none, instructor := some "Smith" }

/-- Preferences marking Smith as a preferred instructor. -/
def c4prefs : StudentPreferences := { preferred_instructors := some "Smith" }

/-! ## Theorems -/

/-- C1: whenever `commit_reservation` succeeds on a reservation for an
offering with non-null capacity and `allow_overfull = false`, at the moment
of commit `enrolled + other_active_held < capacity` (other active held:
status `held`, `expires_at > now`, id different from the committed one);
otherwise — the reservation being held and unexpired — the commit fails
with NoSeats and the database, in particular the offering's enrolled count,
is unchanged. -/
theorem C1_commit_capacity_invariant (db : ResDB) (now : Int) (rid : Nat)
    (r : Reservation) (off : CourseOffering) (cap : Int)
    (hr : db.reservations.find? (fun x => x.id == rid) = some r)
    (hoff : db.offerings.find? (fun o => o.id == r.offering_id) = some off)
    (hcap : off.capacity = some cap) :
    (∀ db' r', commit_reservation db now rid false = .ok db' r' →
      off.enrolled.getD 0 + (other_active_held_count db.reservations now off.id r.id : Int) < cap)
    ∧ (r.status = "held" →
       (∀ e, r.expires_at = some e → ¬ e < now) →
       ¬ (off.enrolled.getD 0 + (other_active_held_count db.reservations now off.id r.id : Int) < cap) →
       commit_reservation db now rid false = .err db .noSeats) := by
  simp only [commit_reservation, hr, hoff, hcap]
  constructor
  · intro db' r' h
    split at h
    · simp at h
    · split at h
      · simp at h
      · split at h
        · simp at h
        · rename_i hns
          simp only [Bool.not_false, Bool.and_true, decide_eq_true_eq, not_le] at hns
          omega
  · intro hheld hexp hge
    rw [if_neg (by simp [hheld])]
    rw [if_neg ?hexp]
    case hexp =>
      cases he : r.expires_at with
      | none => simp
      | some e => simpa using hexp e he
    rw [if_pos ?hns]
    case hns => simp only [Bool.not_false, Bool.and_true, decide_eq_true_eq]; omega

/-- Witness for C1: on a full offering (capacity 1, enrolled 1) the commit
of the held reservation fails with NoSeats and leaves the database
unchanged. -/
theorem C1_commit_capacity_invariant_witness :
    commit_reservation c1db 0 1 false = .err c1db .noSeats :=
  (C1_commit_capacity_invariant c1db 0 1 c1res c1off 1 (by decide) (by decide) (by decide)).2
    (by decide) (by intro e he; cases he; decide) (by decide)

/-- C6 (counterexample): the claim says a commit at `expires_at ≤ now`
fails with Expired, and that a reservation created with `hold_minutes = 0`
and committed immediately fails with Expired.  In the code the expiry test
is strict (`expires_at < now`, line 77), so the commit at
`now = expires_at = 100` succeeds; and `req.hold_minutes or 15` (line 34)
turns `hold_minutes = 0` into the 15-minute default, so the immediate
commit of the fresh reservation also succeeds. -/
theorem C6_expiry_counterexample :
    (commit_reservation c6db 100 1 false).isOk = true
    ∧ ((commit_reservation c6db 100 1 false).reservationOut.map Reservation.status) = some "committed"
    ∧ ((create_reservation c6db 0 1 none (some 0) false 2).reservationOut.bind Reservation.expires_at) = some 15
    ∧ (commit_reservation ((create_reservation c6db 0 1 none (some 0) false 2).db) 0 2 false).isOk = true := by
  decide

/-- C6 (amended): `commit_reservation` on a held reservation whose
`expires_at` is strictly less than the current time transitions it to
expired and fails with Expired, leaving the offerings (hence enrolled)
unchanged; and a reservation created with `hold_minutes = 0` gets the
15-minute default hold (`expires_at = now + 15`), so a commit immediately
after creation does not fail with Expired. -/
theorem C6_expired_commit (db : ResDB) (now : Int) (rid : Nat) (allow : Bool)
    (r : Reservation) (e : Int)
    (hr : db.reservations.find? (fun x => x.id == rid) = some r)
    (hheld : r.status = "held") (he : r.expires_at = some e) (hlt : e < now) :
    commit_reservation db now rid allow =
      .err { db with reservations :=
              db.reservations.map (fun x => if x.id == r.id then { x with status := "expired" } else x) }
        .expired
    ∧ (∀ (db2 : ResDB) (now2 : Int) (oid : Nat) (uid : Option Nat) (allow2 : Bool) (nid : Nat)
        (db2' : ResDB) (r2' : Reservation),
        create_reservation db2 now2 oid uid (some 0) allow2 nid = .ok db2' r2' →
        r2'.expires_at = some (now2 + 15)) := by
  constructor
  · simp only [commit_reservation, hr]
    rw [if_neg (by simp [hheld]), if_pos (by simp [he, hlt])]
  · intro db2 now2 oid uid allow2 nid db2' r2' h
    simp only [create_reservation, effective_hold_minutes] at h
    split at h
    · simp at h
    · split at h
      · simp at h
      · cases h
        simp

/-- Witness for the amended C6: committing reservation 3 (expired at 10) at
time 20 marks it expired and fails with Expired. -/
theorem C6_expired_commit_witness :
    commit_reservation c6wdb 20 3 false =
      .err { c6wdb with reservations :=
              c6wdb.reservations.map (fun x => if x.id == c6wres.id then { x with status := "expired" } else x) }
        .expired :=
  (C6_expired_commit c6wdb 20 3 false c6wres 10 (by decide) (by decide) (by decide) (by decide)).1

/-- C7 (counterexample): the claim says the inserted reservation has
`expires_at = now + hold_minutes`; creating with `hold_minutes = 0` at time
0 yields `expires_at = 15` (the `or 15` default), not `0 + 0 = 0`. -/
theorem C7_create_counterexample :
    ((create_reservation c7db 0 1 none (some 0) false 1).reservationOut.bind Reservation.expires_at) = some 15
    ∧ ¬ (((create_reservation c7db 0 1 none (some 0) false 1).reservationOut.bind Reservation.expires_at) = some (0 + 0)) := by
  decide

/-- C7 (amended): given the offering exists, `create_reservation` fails
with NoSeats exactly when the capacity is non-null,
`capacity - enrolled - active_held ≤ 0` and `allow_overfull = false`; in
every other case it inserts a held reservation with
`expires_at = now + hold_minutes`, where a `hold_minutes` of `None` or `0`
is replaced by the 15-minute default; in particular a null capacity never
yields NoSeats. -/
theorem C7_create_noseats_exact (db : ResDB) (now : Int) (oid : Nat)
    (uid : Option Nat) (hm : Option Int) (allow : Bool) (nid : Nat)
    (off : CourseOffering)
    (hoff : db.offerings.find? (fun o => o.id == oid) = some off) :
    (create_reservation db now oid uid hm allow nid = .err db .noSeats ↔
      (∃ cap, off.capacity = some cap ∧
        cap - off.enrolled.getD 0 - (active_held_count db.reservations now off.id : Int) ≤ 0 ∧
        allow = false))
    ∧ (¬ (∃ cap, off.capacity = some cap ∧
          cap - off.enrolled.getD 0 - (active_held_count db.reservations now off.id : Int) ≤ 0 ∧
          allow = false) →
        create_reservation db now oid uid hm allow nid =
          .ok { db with reservations := db.reservations ++
                  [{ id := nid, offering_id := off.id, user_id := uid, status := "held",
                     created_at := some now, expires_at := some (now + effective_hold_minutes hm),
                     seats := some 1, notes := none }] }
            { id := nid, offering_id := off.id, user_id := uid, status := "held",
              created_at := some now, expires_at := some (now + effective_hold_minutes hm),
              seats := some 1, notes := none })
    ∧ (off.capacity = none → create_reservation db now oid uid hm allow nid ≠ .err db .noSeats) := by
  refine ⟨?_, ?_, ?_⟩
  · cases hcap : off.capacity with
    | none =>
        simp only [create_reservation, hoff, hcap]
        constructor
        · intro h; simp at h
        · rintro ⟨cap', hcap', _, _⟩
          cases hcap'
    | some cap =>
        simp only [create_reservation, hoff, hcap]
        by_cases hle : cap - off.enrolled.getD 0 - (active_held_count db.reservations now off.id : Int) ≤ 0
        · cases allow with
          | true =>
              rw [if_neg (by simp)]
              constructor
              · intro h; simp at h
              · rintro ⟨cap', _, _, hallow⟩; cases hallow
          | false =>
              rw [if_pos (by simp [hle])]
              exact ⟨fun _ => ⟨cap, rfl, hle, rfl⟩, fun _ => rfl⟩
        · rw [if_neg (by simp [hle])]
          constructor
          · intro h; simp at h
          · rintro ⟨cap', hcap', hle', _⟩
            cases hcap'
            exact absurd hle' hle
  · intro hncond
    simp only [create_reservation, hoff]
    rw [if_neg ?hns]
    case hns =>
      cases hcap : off.capacity with
      | none => simp
      | some cap =>
          simp only [Bool.and_eq_true, decide_eq_true_eq, Bool.not_eq_true']
          rintro ⟨hle, hallow⟩
          exact hncond ⟨cap, hcap, hle, by simpa using hallow⟩
  · intro hcap h
    simp only [create_reservation, hoff, hcap] at h
    simp at h

/-- Witness for the amended C7: creating a reservation on the uncapped
offering inserts a held reservation with the default 15-minute hold. -/
theorem C7_create_noseats_exact_witness :
    create_reservation c7db 0 1 none none false 2 =
      .ok { c7db with reservations := c7db.reservations ++
              [{ id := 2, offering_id := c7off.id, user_id := none, status := "held",
                 created_at := some 0, expires_at := some (0 + effective_hold_minutes none),
                 seats := some 1, notes := none }] }
        { id := 2, offering_id := c7off.id, user_id := none, status := "held",
          created_at := some 0, expires_at := some (0 + effective_hold_minutes none),
          seats := some 1, notes := none } :=
  (C7_create_noseats_exact c7db 0 1 none none false 2 c7off (by decide)).2.1
    (by rintro ⟨cap, hcap, -, -⟩; simp [c7off] at hcap)

/-- C10: neither `create_reservation` nor `release_reservation` ever
modifies the offerings table; a failing `commit_reservation` leaves it
unchanged as well; and a successful commit changes it exactly by
incrementing the committed offering's enrolled count by the reservation's
seats (default 1 when seats is null; a seats value of 0 is treated as the
default by `r.seats or 1`). -/
theorem C10_offering_frame (db : ResDB) :
    (∀ (now : Int) (oid : Nat) (uid : Option Nat) (hm : Option Int) (allow : Bool) (nid : Nat),
      (create_reservation db now oid uid hm allow nid).db.offerings = db.offerings)
    ∧ (∀ rid : Nat, (release_reservation db rid).db.offerings = db.offerings)
    ∧ (∀ (now : Int) (rid : Nat) (allow : Bool) (db' : ResDB) (e : ApiError),
        commit_reservation db now rid allow = .err db' e → db'.offerings = db.offerings)
    ∧ (∀ (now : Int) (rid : Nat) (allow : Bool) (r : Reservation) (off : CourseOffering)
        (db' : ResDB) (r' : Reservation),
        db.reservations.find? (fun x => x.id == rid) = some r →
        db.offerings.find? (fun o => o.id == r.offering_id) = some off →
        r.seats ≠ some 0 →
        commit_reservation db now rid allow = .ok db' r' →
        db'.offerings = db.offerings.map (fun o =>
          if o.id == off.id then { o with enrolled := some (off.enrolled.getD 0 + r.seats.getD 1) } else o)) := by
  refine ⟨?_, ?_, ?_, ?_⟩
  · intro now oid uid hm allow nid
    simp only [create_reservation]
    split
    · rfl
    · split <;> rfl
  · intro rid
    simp only [release_reservation]
    split
    · rfl
    · split <;> rfl
  · intro now rid allow db' e h
    rcases hfind : db.reservations.find? (fun x => x.id == rid) with _ | r
    · simp only [commit_reservation, hfind] at h
      cases h
      rfl
    · simp only [commit_reservation, hfind] at h
      split at h
      · cases h; rfl
      · split at h
        · cases h; rfl
        · rcases hoff : db.offerings.find? (fun o => o.id == r.offering_id) with _ | off
          · simp only [hoff] at h; cases h; rfl
          · simp only [hoff] at h
            split at h
            · cases h; rfl
            · simp at h
  · intro now rid allow r off db' r' hr hoff hseats h
    simp only [commit_reservation, hr, hoff] at h
    split at h
    · simp at h
    · split at h
      · simp at h
      · split at h
        · simp at h
        · cases h
          rcases hs : r.seats with _ | s
          · simp [hs]
          · simp only [hs]
            rw [if_neg (by intro h0; exact hseats (by rw [hs, h0]))]
            simp

/-- Witness for C10: committing the held reservation of `c10db` bumps the
offering's enrolled count by its seats. -/
theorem C10_offering_frame_witness :
    c10dbAfter.offerings = c10db.offerings.map (fun o =>
      if o.id == c10off.id then { o with enrolled := some (c10off.enrolled.getD 0 + c10res.seats.getD 1) } else o) :=
  (C10_offering_frame c10db).2.2.2 0 1 false c10res c10off c10dbAfter
    { c10res with status := "committed" }
    (by decide) (by decide) (by decide) (by decide)

/-- The `dfs` best-update either installs the current selection or keeps the previous best. -/
theorem dfs_update_cases (capU : Bool) (cap : ℚ) (best : List Candidate × ℚ)
    (cur : List Candidate) (cc : ℚ) :
    dfs_update capU cap best cur cc = (cur, cc) ∨ dfs_update capU cap best cur cc = best := by
  unfold dfs_update
  split
  · exact Or.inl rfl
  · exact Or.inr rfl

/-- Every candidate in the backtracking result comes from the candidate pool. -/
theorem dfs_loop_mem (capU : Bool) (cap : ℚ) (pool : List Candidate) :
    ∀ (rest cur : List Candidate) (cc : ℚ) (best : List Candidate × ℚ),
    (∀ c ∈ rest, c ∈ pool) → (∀ c ∈ cur, c ∈ pool) → (∀ c ∈ best.1, c ∈ pool) →
    ∀ c ∈ (dfs_loop capU cap rest cur cc best).1, c ∈ pool
  | [], cur, cc, best, _, _, hbest => hbest
  | cand :: tl, cur, cc, best, hrest, hcur, hbest => by
      rw [dfs_loop]
      split
      · exact dfs_loop_mem capU cap pool tl cur cc best
          (fun c hc => hrest c (List.mem_cons_of_mem _ hc)) hcur hbest
      · have hcand : cand ∈ pool := hrest cand (List.mem_cons_self cand tl)
        have hcur' : ∀ c ∈ cur ++ [cand], c ∈ pool := by
          intro c hc
          rcases List.mem_append.1 hc with h | h
          · exact hcur c h
          · rw [List.mem_singleton.1 h]; exact hcand
        have hupd : ∀ c ∈ (dfs_update capU cap best (cur ++ [cand]) (cc + cand_credit cand)).1, c ∈ pool := by
          rcases dfs_update_cases capU cap best (cur ++ [cand]) (cc + cand_credit cand) with h | h
          · rw [h]; exact hcur'
          · rw [h]; exact hbest
        have hinner := dfs_loop_mem capU cap pool tl (cur ++ [cand]) (cc + cand_credit cand)
          (dfs_update capU cap best (cur ++ [cand]) (cc + cand_credit cand))
          (fun c hc => hrest c (List.mem_cons_of_mem _ hc)) hcur' hupd
        exact dfs_loop_mem capU cap pool tl cur cc _
          (fun c hc => hrest c (List.mem_cons_of_mem _ hc)) hcur hinner

/-- The backtracking best credit equals the weighted sum of the best set, and the best set is either untouched (empty, credit 0) or within the cap. -/
theorem dfs_loop_sum (capU : Bool) (cap : ℚ) :
    ∀ (rest cur : List Candidate) (cc : ℚ) (best : List Candidate × ℚ),
    cc = cand_credit_sum cur →
    best.2 = cand_credit_sum best.1 →
    (best.1 = [] ∧ best.2 = 0 ∨ best.2 ≤ cap) →
    (dfs_loop capU cap rest cur cc best).2 = cand_credit_sum (dfs_loop capU cap rest cur cc best).1
    ∧ ((dfs_loop capU cap rest cur cc best).1 = [] ∧ (dfs_loop capU cap rest cur cc best).2 = 0
        ∨ (dfs_loop capU cap rest cur cc best).2 ≤ cap)
  | [], cur, cc, best, _, hbest, hbound => ⟨hbest, hbound⟩
  | cand :: tl, cur, cc, best, hcc, hbest, hbound => by
      rw [dfs_loop]
      split
      · exact dfs_loop_sum capU cap tl cur cc best hcc hbest hbound
      · rename_i hguard
        have hle : cc + cand_credit cand ≤ cap := by
          simp only [Bool.or_eq_true, decide_eq_true_eq, not_or] at hguard
          exact not_lt.1 hguard.1
        have hsum' : cc + cand_credit cand = cand_credit_sum (cur ++ [cand]) := by
          simp [cand_credit_sum, hcc]
        have hupd2 : (dfs_update capU cap best (cur ++ [cand]) (cc + cand_credit cand)).2
            = cand_credit_sum (dfs_update capU cap best (cur ++ [cand]) (cc + cand_credit cand)).1
            ∧ ((dfs_update capU cap best (cur ++ [cand]) (cc + cand_credit cand)).1 = []
                ∧ (dfs_update capU cap best (cur ++ [cand]) (cc + cand_credit cand)).2 = 0
              ∨ (dfs_update capU cap best (cur ++ [cand]) (cc + cand_credit cand)).2 ≤ cap) := by
          unfold dfs_update
          split
          · exact ⟨hsum', Or.inr hle⟩
          · exact ⟨hbest, hbound⟩
        have hinner := dfs_loop_sum capU cap tl (cur ++ [cand]) (cc + cand_credit cand)
          (dfs_update capU cap best (cur ++ [cand]) (cc + cand_credit cand))
          hsum' hupd2.1 hupd2.2
        exact dfs_loop_sum capU cap tl cur cc _ hcc hinner.1 hinner.2

/-- The selected set of a term is a subset of its candidate list. -/
theorem select_term_mem (capU : Bool) (cap : ℚ) (candidates : List Candidate) :
    ∀ c ∈ select_term_candidates capU cap candidates, c ∈ candidates := by
  intro c hc
  unfold select_term_candidates at hc
  split at hc
  · simp at hc
  · have hperm := List.perm_insertionSort
      (fun a b => cand_credit b ≤ cand_credit a) candidates
    refine hperm.mem_iff.1 ?_
    unfold dfs_run at hc
    refine dfs_loop_mem capU cap _ _ [] 0 _ (fun x hx => hx) (by simp) ?_ c hc
    rcases dfs_update_cases capU cap ([], 0) [] 0 with h | h <;> rw [h] <;> simp

/-- The selected set of a term is empty or its weighted-credit sum is within the cap. -/
theorem select_term_sum (capU : Bool) (cap : ℚ) (candidates : List Candidate) :
    select_term_candidates capU cap candidates = []
    ∨ cand_credit_sum (select_term_candidates capU cap candidates) ≤ cap := by
  unfold select_term_candidates
  split
  · exact Or.inl rfl
  · unfold dfs_run
    have hinit : (dfs_update capU cap ([], 0) [] 0).2
        = cand_credit_sum (dfs_update capU cap ([], 0) [] 0).1
        ∧ ((dfs_update capU cap ([], 0) [] 0).1 = [] ∧ (dfs_update capU cap ([], 0) [] 0).2 = 0
            ∨ (dfs_update capU cap ([], 0) [] 0).2 ≤ cap) := by
      unfold dfs_update
      split
      · rename_i h
        exact absurd h.1 (by simp)
      · exact ⟨by simp [cand_credit_sum], Or.inl ⟨rfl, rfl⟩⟩
    have h := dfs_loop_sum capU cap
      (List.insertionSort (fun a b => cand_credit b ≤ cand_credit a) candidates) [] 0
      (dfs_update capU cap ([], 0) [] 0) (by simp [cand_credit_sum]) hinit.1 hinit.2
    rcases h.2 with ⟨h1, _⟩ | h2
    · exact Or.inl h1
    · exact Or.inr (h.1 ▸ h2)

/-- A built candidate comes from the offered pairs and its weighted credits dominate the base credits of its course. -/
theorem build_candidates_spec (ctc : String → Option Course) (pc : PrefContext)
    (ao : Bool) (offeredNow : List (String × CourseOffering)) (cand : Candidate)
    (h : cand ∈ build_candidates ctc pc ao offeredNow) :
    (∃ off, (cand.1, off) ∈ offeredNow) ∧
    (∃ c, ctc cand.1 = some c ∧ ((c.credits.getD 0 : Int) : ℚ) ≤ cand_credit cand) := by
  unfold build_candidates at h
  rcases List.mem_filterMap.1 h with ⟨cw, hcw, hf⟩
  rcases hc : ctc cw.1 with _ | c
  · simp only [hc] at hf
    simp at hf
  · simp only [hc] at hf
    split at hf
    · simp at hf
    · split at hf
      · simp at hf
      · split at hf
        · simp at hf
        · split at hf
          · simp at hf
          · have hf' := Option.some.inj hf
            subst hf'
            refine ⟨⟨cw.2, by simpa using hcw⟩, c, by simpa using hc, ?_⟩
            simp only [cand_credit]
            split
            · norm_num
            · norm_num

/-- A code paired with an offering in the offered-now list is an eligible code. -/
theorem offered_pair_mem (eligible : List String)
    (f : String → Option CourseOffering) (code : String) (off : CourseOffering)
    (h : (code, off) ∈ eligible.filterMap (fun c => (f c).map (fun o => (c, o)))) :
    code ∈ eligible := by
  rcases List.mem_filterMap.1 h with ⟨c, hc, hf⟩
  rcases hfc : f c with _ | o
  · rw [hfc] at hf; simp at hf
  · rw [hfc] at hf
    have hf' := Option.some.inj hf
    have hceq : c = code := congrArg Prod.fst hf'
    rw [← hceq]
    exact hc

/-- Every emitted plan course corresponds to a selected candidate with the same course code. -/
theorem emit_selected_mem (ctc : String → Option Course) (ao rs : Bool) :
    ∀ (sel : List Candidate) (dbOff : List CourseOffering)
      (pe : PlanCourse), pe ∈ (emit_selected ctc ao rs sel dbOff).1 →
      ∃ cand ∈ sel, pe.course_code = cand.1
  | [], dbOff, pe, h => by simp [emit_selected] at h
  | cand :: rest, dbOff, pe, h => by
      rw [emit_selected] at h
      rcases hc : ctc cand.1 with _ | c
      · simp only [hc] at h
        rcases emit_selected_mem ctc ao rs rest dbOff pe h with ⟨cand', hmem, hcode⟩
        exact ⟨cand', List.mem_cons_of_mem _ hmem, hcode⟩
      · simp only [hc] at h
        split at h
        · rcases emit_selected_mem ctc ao rs rest dbOff pe h with ⟨cand', hmem, hcode⟩
          exact ⟨cand', List.mem_cons_of_mem _ hmem, hcode⟩
        · rcases List.mem_cons.1 h with hpe | hpe
          · exact ⟨cand, List.mem_cons_self cand rest, by rw [hpe]⟩
          · rcases emit_selected_mem ctc ao rs rest _ pe hpe with ⟨cand', hmem, hcode⟩
            exact ⟨cand', List.mem_cons_of_mem _ hmem, hcode⟩

/-- The emitted base-credit total is at most the weighted-credit sum of the selected candidates, given nonnegative base credits below the weights. -/
theorem emit_selected_total (ctc : String → Option Course) (ao rs : Bool) :
    ∀ (sel : List Candidate) (dbOff : List CourseOffering),
    (∀ cand ∈ sel, ∃ c, ctc cand.1 = some c ∧
      ((c.credits.getD 0 : Int) : ℚ) ≤ cand_credit cand ∧ 0 ≤ c.credits.getD 0) →
    ((emit_selected ctc ao rs sel dbOff).2.1 : ℚ) ≤ cand_credit_sum sel
  | [], dbOff, _ => by simp [emit_selected, cand_credit_sum]
  | cand :: rest, dbOff, hspec => by
      have hhead := hspec cand (List.mem_cons_self cand rest)
      rcases hhead with ⟨c, hc, hle, hnn⟩
      have htail : ∀ cand' ∈ rest, ∃ c', ctc cand'.1 = some c' ∧
          ((c'.credits.getD 0 : Int) : ℚ) ≤ cand_credit cand' ∧ 0 ≤ c'.credits.getD 0 :=
        fun cand' h' => hspec cand' (List.mem_cons_of_mem _ h')
      have hw : (0 : ℚ) ≤ cand_credit cand := le_trans (by exact_mod_cast hnn) hle
      have hsum : cand_credit_sum (cand :: rest) = cand_credit cand + cand_credit_sum rest := by
        simp [cand_credit_sum]
      rw [emit_selected]
      simp only [hc]
      rw [hsum]
      split
      · have hrec := emit_selected_total ctc ao rs rest dbOff htail
        linarith
      · have hrec := emit_selected_total ctc ao rs rest
          (if rs && !(cand.2.1.enrolled == none) then
            dbOff.map (fun o => if o.id == cand.2.1.id then { o with enrolled := o.enrolled.map (· + 1) } else o)
          else dbOff) htail
        push_cast
        linarith

/-- Membership in a fold of set-inserts of emitted course codes. -/
theorem mem_foldl_insert (l : List PlanCourse) (acc : List String) (p : String) :
    p ∈ l.foldl (fun a sc => a.insert sc.course_code) acc ↔
      p ∈ acc ∨ ∃ sc ∈ l, sc.course_code = p := by
  induction l generalizing acc with
  | nil => simp
  | cons sc tl ih =>
      simp only [List.foldl_cons, ih, List.mem_insert_iff, List.mem_cons]
      constructor
      · rintro (⟨h | h⟩ | ⟨sc', hsc', hcode⟩)
        · exact Or.inr ⟨sc, Or.inl rfl, h.symm⟩
        · exact Or.inl h
        · exact Or.inr ⟨sc', Or.inr hsc', hcode⟩
      · rintro (h | ⟨sc', hsc' | hsc', hcode⟩)
        · exact Or.inl (Or.inr h)
        · exact Or.inl (Or.inl (by rw [hsc'] at hcode; exact hcode.symm))
        · exact Or.inr ⟨sc', hsc', hcode⟩

/-- Greedy-loop invariant: a prerequisite of a scheduled course is already completed at loop entry or scheduled in a strictly earlier emitted term. -/
theorem greedy_loop_prereq (today : Int × Int) (ctc : String → Option Course)
    (pm : String → List String) (pc : PrefContext) (effMax : Int) (ao rs : Bool) :
    ∀ (fuel : Nat) (completed remaining : List String) (semLabel : String)
      (dbOff : List CourseOffering) (i : Nat) (entry : TermPlan),
    (greedy_loop today ctc pm pc effMax ao rs fuel completed remaining semLabel dbOff)[i]? = some entry →
    ∀ pe ∈ entry.courses, ∀ p ∈ pm pe.course_code,
      p ∈ completed ∨
      ∃ j, j < i ∧ ∃ entry',
        (greedy_loop today ctc pm pc effMax ao rs fuel completed remaining semLabel dbOff)[j]? = some entry'
        ∧ ∃ pe', pe' ∈ entry'.courses ∧ pe'.course_code = p := by
  intro fuel
  induction fuel with
  | zero =>
      intro completed remaining semLabel dbOff i entry h
      rw [greedy_loop] at h
      simp at h
  | succ fuel ih =>
      intro completed remaining semLabel dbOff i entry h pe hpe p hp
      rw [greedy_loop] at h ⊢
      by_cases hrem : remaining.isEmpty
      · rw [if_pos hrem] at h; simp at h
      · rw [if_neg hrem] at h ⊢
        simp only at h ⊢
        set eligible := remaining.filter (fun code => (pm code).all (fun q => completed.contains q)) with heligible
        set offeredNow := eligible.filterMap (fun code =>
          (offered_this_term dbOff ctc pc.prefInstructors ao code semLabel).map (fun off => (code, off))) with hofferedNow
        set candidates := build_candidates ctc pc ao offeredNow with hcandidates
        set selected := select_term_candidates false (effMax : ℚ) candidates with hselected
        set emitted := emit_selected ctc ao rs selected dbOff with hemitted
        by_cases hemp : emitted.1.isEmpty
        · rw [if_pos hemp] at h ⊢
          by_cases helig : eligible.isEmpty
          · rw [if_pos helig] at h; simp at h
          · rw [if_neg helig] at h ⊢
            exact ih completed remaining _ dbOff i entry h pe hpe p hp
        · rw [if_neg hemp] at h ⊢
          match i, h with
          | 0, h =>
              have hentry : entry = { semester := semLabel, courses := emitted.1, total_credits := emitted.2.1 } := by
                simpa using h.symm
              have hpe1 : pe ∈ emitted.1 := by rw [hentry] at hpe; exact hpe
              rcases emit_selected_mem ctc ao rs selected dbOff pe (by rw [← hemitted]; exact hpe1)
                with ⟨cand, hcand, hcode⟩
              have hcand2 : cand ∈ candidates := by
                have := select_term_mem false (effMax : ℚ) candidates cand (by rw [← hselected]; exact hcand)
                exact this
              rcases build_candidates_spec ctc pc ao offeredNow cand (by rw [← hcandidates]; exact hcand2)
                with ⟨⟨off, hoffmem⟩, -⟩
              have helig2 : cand.1 ∈ eligible :=
                offered_pair_mem eligible
                  (fun code => offered_this_term dbOff ctc pc.prefInstructors ao code semLabel)
                  cand.1 off (by rw [← hofferedNow]; exact hoffmem)
              have hall : ((pm cand.1).all (fun q => completed.contains q)) = true := by
                rw [heligible] at helig2
                exact (List.mem_filter.1 helig2).2
              have hpcontains := List.all_eq_true.1 hall p (by rw [← hcode]; exact hp)
              exact Or.inl (by simpa using hpcontains)
          | Nat.succ j, h =>
              have h' : (greedy_loop today ctc pm pc effMax ao rs fuel
                  (emitted.1.foldl (fun acc sc => acc.insert sc.course_code) completed)
                  (emitted.1.foldl (fun acc sc => acc.erase sc.course_code) remaining)
                  (next_semester_label today semLabel) emitted.2.2)[j]? = some entry := by
                simpa using h
              rcases ih _ _ _ _ j entry h' pe hpe p hp with hl | ⟨j', hj', entry', hentry', pe', hpe', hcode'⟩
              · rcases (mem_foldl_insert emitted.1 completed p).1 hl with hl2 | ⟨sc, hsc, hsccode⟩
                · exact Or.inl hl2
                · exact Or.inr ⟨0, Nat.succ_pos j,
                    { semester := semLabel, courses := emitted.1, total_credits := emitted.2.1 },
                    by simp, sc, hsc, hsccode⟩
              · exact Or.inr ⟨j' + 1, Nat.succ_lt_succ hj', entry', by simpa using hentry', pe', hpe', hcode'⟩

/-- Load-balancing-loop invariant: a prerequisite of a scheduled course is already scheduled at loop entry or appears in a strictly earlier term. -/
theorem lb_loop_prereq (today : Int × Int) (ctc : String → Option Course)
    (courseCodes : List String) (pm : String → List String) (pc : PrefContext)
    (target : Int) (ao rs : Bool) :
    ∀ (fuel : Nat) (scheduled : List String) (semLabel : String)
      (dbOff : List CourseOffering) (i : Nat) (entry : TermPlan),
    (lb_loop today ctc courseCodes pm pc target ao rs fuel scheduled semLabel dbOff)[i]? = some entry →
    ∀ pe ∈ entry.courses, ∀ p ∈ pm pe.course_code,
      p ∈ scheduled ∨
      ∃ j, j < i ∧ ∃ entry',
        (lb_loop today ctc courseCodes pm pc target ao rs fuel scheduled semLabel dbOff)[j]? = some entry'
        ∧ ∃ pe', pe' ∈ entry'.courses ∧ pe'.course_code = p := by
  intro fuel
  induction fuel with
  | zero =>
      intro scheduled semLabel dbOff i entry h
      rw [lb_loop] at h
      simp at h
  | succ fuel ih =>
      intro scheduled semLabel dbOff i entry h pe hpe p hp
      rw [lb_loop] at h ⊢
      set eligible := courseCodes.filter (fun code =>
        !scheduled.contains code && (pm code).all (fun q => scheduled.contains q)) with heligible
      set offeredNow := eligible.filterMap (fun code =>
        (offered_this_term dbOff ctc pc.prefInstructors ao code semLabel).map (fun off => (code, off))) with hofferedNow
      set candidates := build_candidates ctc pc ao offeredNow with hcandidates
      set selected := select_term_candidates true (target : ℚ) candidates with hselected
      set emitted := emit_selected ctc ao rs selected dbOff with hemitted
      match i, h with
      | 0, h =>
          have hentry : entry = { semester := semLabel, courses := emitted.1, total_credits := emitted.2.1 } := by
            simpa using h.symm
          have hpe1 : pe ∈ emitted.1 := by rw [hentry] at hpe; exact hpe
          rcases emit_selected_mem ctc ao rs selected dbOff pe (by rw [← hemitted]; exact hpe1)
            with ⟨cand, hcand, hcode⟩
          have hcand2 : cand ∈ candidates := by
            have := select_term_mem true (target : ℚ) candidates cand (by rw [← hselected]; exact hcand)
            exact this
          rcases build_candidates_spec ctc pc ao offeredNow cand (by rw [← hcandidates]; exact hcand2)
            with ⟨⟨off, hoffmem⟩, -⟩
          have helig2 : cand.1 ∈ eligible :=
            offered_pair_mem eligible
              (fun code => offered_this_term dbOff ctc pc.prefInstructors ao code semLabel)
              cand.1 off (by rw [← hofferedNow]; exact hoffmem)
          have hall : ((pm cand.1).all (fun q => scheduled.contains q)) = true := by
            rw [heligible] at helig2
            have hfil := (List.mem_filter.1 helig2).2
            simp only [Bool.and_eq_true] at hfil
            exact hfil.2
          have hpcontains := List.all_eq_true.1 hall p (by rw [← hcode]; exact hp)
          exact Or.inl (by simpa using hpcontains)
      | Nat.succ j, h =>
          have h' : (lb_loop today ctc courseCodes pm pc target ao rs fuel
              (emitted.1.foldl (fun acc sc => acc.insert sc.course_code) scheduled)
              (next_semester_label today semLabel) emitted.2.2)[j]? = some entry := by
            simpa using h
          rcases ih _ _ _ j entry h' pe hpe p hp with hl | ⟨j', hj', entry', hentry', pe', hpe', hcode'⟩
          · rcases (mem_foldl_insert emitted.1 scheduled p).1 hl with hl2 | ⟨sc, hsc, hsccode⟩
            · exact Or.inl hl2
            · exact Or.inr ⟨0, Nat.succ_pos j,
                { semester := semLabel, courses := emitted.1, total_credits := emitted.2.1 },
                by simp, sc, hsc, hsccode⟩
          · exact Or.inr ⟨j' + 1, Nat.succ_lt_succ hj', entry', by simpa using hentry', pe', hpe', hcode'⟩

/-- Greedy-loop invariant: every emitted term total is at most the effective cap. -/
theorem greedy_loop_cap (today : Int × Int) (ctc : String → Option Course)
    (pm : String → List String) (pc : PrefContext) (effMax : Int) (ao rs : Bool)
    (hctc : ∀ code c, ctc code = some c → 0 ≤ c.credits.getD 0) :
    ∀ (fuel : Nat) (completed remaining : List String) (semLabel : String)
      (dbOff : List CourseOffering),
    ∀ entry ∈ greedy_loop today ctc pm pc effMax ao rs fuel completed remaining semLabel dbOff,
      entry.total_credits ≤ effMax := by
  intro fuel
  induction fuel with
  | zero =>
      intro completed remaining semLabel dbOff entry hentry
      rw [greedy_loop] at hentry
      simp at hentry
  | succ fuel ih =>
      intro completed remaining semLabel dbOff entry hentry
      rw [greedy_loop] at hentry
      by_cases hrem : remaining.isEmpty
      · rw [if_pos hrem] at hentry; simp at hentry
      · rw [if_neg hrem] at hentry
        simp only at hentry
        set eligible := remaining.filter (fun code => (pm code).all (fun q => completed.contains q)) with heligible
        set offeredNow := eligible.filterMap (fun code =>
          (offered_this_term dbOff ctc pc.prefInstructors ao code semLabel).map (fun off => (code, off))) with hofferedNow
        set candidates := build_candidates ctc pc ao offeredNow with hcandidates
        set selected := select_term_candidates false (effMax : ℚ) candidates with hselected
        set emitted := emit_selected ctc ao rs selected dbOff with hemitted
        by_cases hemp : emitted.1.isEmpty
        · rw [if_pos hemp] at hentry
          by_cases helig : eligible.isEmpty
          · rw [if_pos helig] at hentry; simp at hentry
          · rw [if_neg helig] at hentry
            exact ih completed remaining _ dbOff entry hentry
        · rw [if_neg hemp] at hentry
          rcases List.mem_cons.1 hentry with hhead | htail
          · have hspec : ∀ cand ∈ selected, ∃ c, ctc cand.1 = some c ∧
                ((c.credits.getD 0 : Int) : ℚ) ≤ cand_credit cand ∧ 0 ≤ c.credits.getD 0 := by
              intro cand hcand
              have hcand2 : cand ∈ candidates := by
                have := select_term_mem false (effMax : ℚ) candidates cand (by rw [← hselected]; exact hcand)
                exact this
              rcases build_candidates_spec ctc pc ao offeredNow cand (by rw [← hcandidates]; exact hcand2)
                with ⟨-, c, hc, hle⟩
              exact ⟨c, hc, hle, hctc _ _ hc⟩
            have htot := emit_selected_total ctc ao rs selected dbOff hspec
            rcases select_term_sum false (effMax : ℚ) candidates with hnil | hsum
            · exfalso
              apply hemp
              rw [hemitted, hselected, hnil]
              rw [emit_selected]
              rfl
            · rw [← hselected] at hsum
              have hq : ((emit_selected ctc ao rs selected dbOff).2.1 : ℚ) ≤ (effMax : ℚ) :=
                le_trans htot hsum
              have : entry.total_credits = emitted.2.1 := by rw [hhead]
              rw [this, hemitted]
              exact_mod_cast hq
          · exact ih _ _ _ _ entry htail

/-- Load-balancing-loop invariant: every term total is at most the target credits. -/
theorem lb_loop_cap (today : Int × Int) (ctc : String → Option Course)
    (courseCodes : List String) (pm : String → List String) (pc : PrefContext)
    (target : Int) (ao rs : Bool)
    (hctc : ∀ code c, ctc code = some c → 0 ≤ c.credits.getD 0)
    (htarget : 0 ≤ target) :
    ∀ (fuel : Nat) (scheduled : List String) (semLabel : String)
      (dbOff : List CourseOffering),
    ∀ entry ∈ lb_loop today ctc courseCodes pm pc target ao rs fuel scheduled semLabel dbOff,
      entry.total_credits ≤ target := by
  intro fuel
  induction fuel with
  | zero =>
      intro scheduled semLabel dbOff entry hentry
      rw [lb_loop] at hentry
      simp at hentry
  | succ fuel ih =>
      intro scheduled semLabel dbOff entry hentry
      rw [lb_loop] at hentry
      set eligible := courseCodes.filter (fun code =>
        !scheduled.contains code && (pm code).all (fun q => scheduled.contains q)) with heligible
      set offeredNow := eligible.filterMap (fun code =>
        (offered_this_term dbOff ctc pc.prefInstructors ao code semLabel).map (fun off => (code, off))) with hofferedNow
      set candidates := build_candidates ctc pc ao offeredNow with hcandidates
      set selected := select_term_candidates true (target : ℚ) candidates with hselected
      set emitted := emit_selected ctc ao rs selected dbOff with hemitted
      rcases List.mem_cons.1 hentry with hhead | htail
      · have hspec : ∀ cand ∈ selected, ∃ c, ctc cand.1 = some c ∧
            ((c.credits.getD 0 : Int) : ℚ) ≤ cand_credit cand ∧ 0 ≤ c.credits.getD 0 := by
          intro cand hcand
          have hcand2 : cand ∈ candidates := by
            have := select_term_mem true (target : ℚ) candidates cand (by rw [← hselected]; exact hcand)
            exact this
          rcases build_candidates_spec ctc pc ao offeredNow cand (by rw [← hcandidates]; exact hcand2)
            with ⟨-, c, hc, hle⟩
          exact ⟨c, hc, hle, hctc _ _ hc⟩
        have htot := emit_selected_total ctc ao rs selected dbOff hspec
        have hbound : ((emit_selected ctc ao rs selected dbOff).2.1 : ℚ) ≤ (target : ℚ) := by
          rcases select_term_sum true (target : ℚ) candidates with hnil | hsum
          · rw [← hselected] at hnil
            rw [hnil, emit_selected]
            exact_mod_cast htarget
          · rw [← hselected] at hsum
            exact le_trans htot hsum
        have : entry.total_credits = emitted.2.1 := by rw [hhead]
        rw [this, hemitted]
        exact_mod_cast hbound
      · exact ih _ _ _ entry htail

/-- The load-balancing target is between 0 and the effective cap when the cap is nonnegative. -/
theorem target_credits_bounds (effMax totalCredits : Int) (nTerms : Nat)
    (heff : 0 ≤ effMax) :
    0 ≤ target_credits_calc effMax totalCredits nTerms
    ∧ target_credits_calc effMax totalCredits nTerms ≤ effMax := by
  unfold target_credits_calc
  split
  · constructor
    · refine le_min heff ?_
      have h1 : (0 : Int) ≤ 1 := by norm_num
      exact le_trans h1 (le_max_left _ _)
    · exact min_le_left _ _
  · exact ⟨heff, le_refl _⟩

/-- C2: for every plan produced by the greedy (`balance_load = false`) or
load-balancing (`balance_load = true`) planner, every scheduled course of
term `i` and every prerequisite `p` of it in the prerequisite map: `p` is
in the completed-course input or scheduled in a strictly earlier term of
the same plan. -/
theorem C2_plan_prerequisites (today : Int × Int) (courses : List Course)
    (pm : String → List String) (dbOfferings : List CourseOffering)
    (completed0 : List String) (maxCred : Int) (start : String) (maxTerms : Nat)
    (ao rs bl : Bool) (prefs : Option StudentPreferences)
    (i : Nat) (entry : TermPlan) (pe : PlanCourse) (p : String)
    (hentry : (optimize_pathway today courses pm dbOfferings completed0 maxCred start maxTerms ao rs bl prefs)[i]? = some entry)
    (hpe : pe ∈ entry.courses) (hp : p ∈ pm pe.course_code) :
    p ∈ completed0 ∨
    ∃ j, j < i ∧ ∃ entry',
      (optimize_pathway today courses pm dbOfferings completed0 maxCred start maxTerms ao rs bl prefs)[j]? = some entry'
      ∧ ∃ pe', pe' ∈ entry'.courses ∧ pe'.course_code = p := by
  simp only [optimize_pathway] at hentry ⊢
  by_cases hc : courses.isEmpty
  · rw [if_pos hc] at hentry; simp at hentry
  · rw [if_neg hc] at hentry ⊢
    by_cases hbl : bl = false
    · rw [if_pos hbl] at hentry ⊢
      exact greedy_loop_prereq today _ pm _ _ ao rs maxTerms completed0 _ start dbOfferings i entry hentry pe hpe p hp
    · rw [if_neg hbl] at hentry ⊢
      exact lb_loop_prereq today _ _ pm _ _ ao rs maxTerms completed0 start dbOfferings i entry hentry pe hpe p hp

/-- Witness for C2: in the two-term plan scheduling B (which requires A)
after A, the prerequisite A of the term-1 course B is scheduled in the
strictly earlier term 0. -/
theorem C2_plan_prerequisites_witness :
    "A" ∈ ([] : List String) ∨
    ∃ j, j < 1 ∧ ∃ entry',
      (optimize_pathway (1, 2000) [c2courseA, c2courseB] c2pm [c2offA, c2offA2, c2offB] [] 15 "Fall 2025" 12
        false false false none)[j]? = some entry'
      ∧ ∃ pe', pe' ∈ entry'.courses ∧ pe'.course_code = "A" :=
  C2_plan_prerequisites (1, 2000) [c2courseA, c2courseB] c2pm [c2offA, c2offA2, c2offB] [] 15 "Fall 2025" 12
    false false false none 1
    { semester := "Spring 2026",
      courses := [{ course_code := "B", name := "Intro B", credits := some 3, offering := offering_info c2offB }],
      total_credits := 3 }
    { course_code := "B", name := "Intro B", credits := some 3, offering := offering_info c2offB }
    "A" (by with_unfolding_all decide) (by with_unfolding_all decide) (by decide)

/-- C3 (counterexample): with a request cap of 15 and a stored preference
cap of 18, a 16-credit course is scheduled into a term with
`total_credits = 16`, exceeding the claimed effective cap
`min 15 18 = 15`: the code lets the preference value override the request
cap even when it is larger (`pref_max_credits or max_credits_per_semester`,
line 220). -/
theorem C3_counterexample_min :
    ((optimize_pathway (1, 2000) [c3course] (fun _ => []) [c3off] [] 15 "Fall 2025" 12
        false false false (some c3prefs)).map TermPlan.total_credits) = [16]
    ∧ ¬ ((16 : Int) ≤ min 15 18) := by
  with_unfolding_all decide

/-- C3 (amended): for every term of a plan produced by either planner,
`total_credits` is at most the effective cap, where the effective cap is
`preferences.max_credits_per_term` when set and nonzero — even when larger
than the request cap — and the request `max_credits_per_semester`
otherwise; course credits and the effective cap are nonnegative (the data
model's invariants). -/
theorem C3_term_credit_cap (today : Int × Int) (courses : List Course)
    (pm : String → List String) (dbOfferings : List CourseOffering)
    (completed0 : List String) (maxCred : Int) (start : String) (maxTerms : Nat)
    (ao rs bl : Bool) (prefs : Option StudentPreferences)
    (hcred : ∀ c ∈ courses, 0 ≤ c.credits.getD 0)
    (heff : 0 ≤ (interpret_preferences prefs).prefMaxCredits.getD maxCred) :
    ∀ entry ∈ optimize_pathway today courses pm dbOfferings completed0 maxCred start maxTerms ao rs bl prefs,
      entry.total_credits ≤ (interpret_preferences prefs).prefMaxCredits.getD maxCred := by
  intro entry hentry
  have hctc : ∀ code c, code_to_course courses code = some c → 0 ≤ c.credits.getD 0 := by
    intro code c h
    exact hcred c (List.mem_of_find?_eq_some h)
  simp only [optimize_pathway] at hentry
  by_cases hc : courses.isEmpty
  · rw [if_pos hc] at hentry; simp at hentry
  · rw [if_neg hc] at hentry
    by_cases hbl : bl = false
    · rw [if_pos hbl] at hentry
      exact greedy_loop_cap today _ pm _ _ ao rs hctc maxTerms completed0 _ start dbOfferings entry hentry
    · rw [if_neg hbl] at hentry
      refine le_trans
        (lb_loop_cap today _ _ pm _ _ ao rs hctc ?ht maxTerms completed0 start dbOfferings entry hentry) ?hle
      case ht => exact (target_credits_bounds _ _ _ heff).1
      case hle => exact (target_credits_bounds _ _ _ heff).2

/-- Witness for the amended C3: the 16-credit term of the counterexample
plan is within the code's effective cap of 18. -/
theorem C3_term_credit_cap_witness :
    TermPlan.total_credits
      { semester := "Fall 2025",
        courses := [{ course_code := "X", name := "Big X", credits := some 16, offering := offering_info c3off }],
        total_credits := 16 }
      ≤ (interpret_preferences (some c3prefs)).prefMaxCredits.getD 15 :=
  C3_term_credit_cap (1, 2000) [c3course] (fun _ => []) [c3off] [] 15 "Fall 2025" 12
    false false false (some c3prefs) (by decide) (by decide)
    { semester := "Fall 2025",
      courses := [{ course_code := "X", name := "Big X", credits := some 16, offering := offering_info c3off }],
      total_credits := 16 }
    (by with_unfolding_all decide)

/-- C4: the packer's cap feasibility test uses the weighted credits, not
the base credits.  Two 3-credit courses whose offerings are taught by a
preferred instructor carry weighted credits 3.1 each; under a cap of 6 the
greedy planner schedules them into two separate terms (3.1 + 3.1 > 6),
although their base credits sum to exactly the cap (3 + 3 is at most 6) and the
claim says the full set is still selectable.  Without the preference the
same input packs both courses into one term. -/
theorem C4_weighted_credits_cap_bug :
    ((optimize_pathway (1, 2000) [c4courseA, c4courseB] (fun _ => []) [c4offA, c4offA2, c4offB, c4offB2]
        [] 6 "Fall 2025" 12 false false false (some c4prefs)).map
          (fun t => t.courses.map PlanCourse.course_code)) = [["A"], ["B"]]
    ∧ ((optimize_pathway (1, 2000) [c4courseA, c4courseB] (fun _ => []) [c4offA, c4offA2, c4offB, c4offB2]
        [] 6 "Fall 2025" 12 false false false none).map
          (fun t => t.courses.map PlanCourse.course_code)) = [["A", "B"]]
    ∧ ((3 : Int) + 3 ≤ 6) := by
  with_unfolding_all decide

/-- Facts about decimal digit characters, needed for the label round-trips. -/
theorem digitChar_facts : ∀ d : Nat, d < 10 →
    (Nat.digitChar d ≠ '-' ∧ (Nat.digitChar d).isWhitespace = false) ∧
    digitVal (Nat.digitChar d) = some d := by
  decide

/-- Every character produced by the decimal printer satisfies any property of the ten digit characters. -/
theorem toDigitsCore_all (P : Char → Prop) (hP : ∀ d, d < 10 → P (Nat.digitChar d)) :
    ∀ (fuel n : Nat) (ds : List Char), (∀ c ∈ ds, P c) →
    ∀ c ∈ Nat.toDigitsCore 10 fuel n ds, P c
  | 0, n, ds, hds => hds
  | fuel + 1, n, ds, hds => by
      rw [Nat.toDigitsCore]
      have hd : P (Nat.digitChar (n % 10)) := hP _ (Nat.mod_lt _ (by norm_num))
      have hcons : ∀ c ∈ Nat.digitChar (n % 10) :: ds, P c := by
        intro c hc
        rcases List.mem_cons.1 hc with h | h
        · rw [h]; exact hd
        · exact hds c h
      split
      · exact hcons
      · exact toDigitsCore_all P hP fuel (n / 10) _ hcons

/-- The decimal printer never produces an empty character list. -/
theorem toDigitsCore_ne_nil : ∀ (fuel n : Nat) (ds : List Char), 0 < fuel →
    Nat.toDigitsCore 10 fuel n ds ≠ []
  | 0, _, _, h => absurd h (by norm_num)
  | fuel + 1, n, ds, _ => by
      rw [Nat.toDigitsCore]
      split
      · simp
      · rcases Nat.eq_zero_or_pos fuel with h0 | hpos
        · subst h0
          rw [Nat.toDigitsCore]
          simp
        · exact toDigitsCore_ne_nil fuel (n / 10) _ hpos

/-- Accumulator invariant relating the decimal parser to the decimal printer. -/
theorem parseNatAux_toDigitsCore : ∀ (fuel n : Nat) (ds : List Char) (acc : Nat), n < fuel →
    parseNatAux (Nat.toDigitsCore 10 fuel n ds) acc =
    parseNatAux ds (acc * 10 ^ (Nat.toDigitsCore 10 fuel n []).length + n) := by
  intro fuel
  induction fuel with
  | zero => intro n ds acc h; exact absurd h (Nat.not_lt_zero n)
  | succ fuel ih =>
      intro n ds acc h
      have hdv : digitVal (Nat.digitChar (n % 10)) = some (n % 10) :=
        (digitChar_facts _ (Nat.mod_lt _ (by norm_num))).2
      by_cases h0 : n / 10 = 0
      · have hn10 : n < 10 := by
          rcases Nat.lt_or_ge n 10 with h10 | h10
          · exact h10
          · exact absurd h0 (by
              have : 0 < n / 10 := Nat.div_pos h10 (by norm_num)
              omega)
        have hmod : n % 10 = n := Nat.mod_eq_of_lt hn10
        rw [Nat.toDigitsCore]
        rw [if_pos h0]
        conv_rhs => rw [Nat.toDigitsCore, if_pos h0]
        rw [parseNatAux, hdv, hmod]
        simp
      · have hq : n / 10 < fuel := by
          have h1 : n / 10 < n := Nat.div_lt_self (by omega) (by norm_num)
          omega
        rw [Nat.toDigitsCore]
        rw [if_neg h0]
        conv_rhs => rw [Nat.toDigitsCore, if_neg h0]
        rw [ih (n / 10) _ acc hq]
        rw [parseNatAux]
        simp only [hdv]
        rw [Nat.toDigitsCore_lens_eq]
        have hrepr : 10 * (n / 10) + n % 10 = n := Nat.div_add_mod n 10
        congr 1
        rw [pow_succ]
        have hring : (acc * 10 ^ (Nat.toDigitsCore 10 fuel (n / 10) []).length + n / 10) * 10 + n % 10
            = acc * (10 ^ (Nat.toDigitsCore 10 fuel (n / 10) []).length * 10) + (10 * (n / 10) + n % 10) := by
          ring
        rw [hring, hrepr]

/-- Parsing the decimal print of a natural number returns it. -/
theorem parseNatChars_toDigits (n : Nat) :
    parseNatChars (Nat.toDigits 10 n) = some n := by
  unfold parseNatChars Nat.toDigits
  rw [if_neg (by simpa using toDigitsCore_ne_nil (n + 1) n [] (Nat.succ_pos n))]
  rw [parseNatAux_toDigitsCore (n + 1) n [] 0 (Nat.lt_succ_self n)]
  simp [parseNatAux]

/-- The model of Python int applied to the decimal print of a natural number returns it. -/
theorem pyInt_toDigits (n : Nat) :
    pyInt ⟨Nat.toDigits 10 n⟩ = some (n : Int) := by
  have hne : Nat.toDigits 10 n ≠ [] := by
    simpa using toDigitsCore_ne_nil (n + 1) n [] (Nat.succ_pos n)
  have hall : ∀ c ∈ Nat.toDigits 10 n, c ≠ '-' ∧ c.isWhitespace = false :=
    toDigitsCore_all _ (fun d hd => (digitChar_facts d hd).1) (n + 1) n [] (by simp)
  unfold pyInt
  rcases hds : Nat.toDigits 10 n with _ | ⟨d, rest⟩
  · exact absurd hds hne
  · have hd : d ≠ '-' := (hall d (by rw [hds]; exact List.mem_cons_self d rest)).1
    simp only
    split
    · rename_i rest' heq
      injection heq with h1 h2
      exact absurd h1 hd
    · rw [← hds]
      simp [parseNatChars_toDigits n]

/-- Splitting behaviour on a whitespace-free word followed by a space. -/
theorem pySplitWsChars_word : ∀ (w acc tail : List Char),
    (∀ c ∈ w, c.isWhitespace = false) → (acc ≠ [] ∨ w ≠ []) →
    pySplitWsChars (w ++ ' ' :: tail) acc =
      (⟨(acc.reverse ++ w)⟩ : String) :: pySplitWsChars tail []
  | [], acc, tail, _, hne => by
      rw [List.nil_append, pySplitWsChars]
      rw [if_pos (by decide)]
      rw [if_neg (by rcases hne with h | h; exacts [by simpa using h, absurd rfl h])]
      simp
  | c :: w', acc, tail, hws, _ => by
      have hc : c.isWhitespace = false := hws c (List.mem_cons_self c w')
      rw [List.cons_append, pySplitWsChars, if_neg (by simp [hc])]
      rw [pySplitWsChars_word w' (c :: acc) tail
        (fun x hx => hws x (List.mem_cons_of_mem c hx)) (Or.inl (by simp))]
      simp

/-- Splitting behaviour on a final whitespace-free word. -/
theorem pySplitWsChars_last : ∀ (w acc : List Char),
    (∀ c ∈ w, c.isWhitespace = false) → (acc ≠ [] ∨ w ≠ []) →
    pySplitWsChars w acc = [⟨acc.reverse ++ w⟩]
  | [], acc, _, hne => by
      rw [pySplitWsChars]
      rw [if_neg (by rcases hne with h | h; exacts [by simpa using h, absurd rfl h])]
      simp
  | c :: w', acc, hws, _ => by
      have hc : c.isWhitespace = false := hws c (List.mem_cons_self c w')
      rw [pySplitWsChars, if_neg (by simp [hc])]
      rw [pySplitWsChars_last w' (c :: acc)
        (fun x hx => hws x (List.mem_cons_of_mem c hx)) (Or.inl (by simp))]
      simp

/-- Python str.split() of a two-word label yields the two words. -/
theorem pySplitWs_label (t : String) (z : List Char)
    (ht : t.data ≠ []) (htws : ∀ c ∈ t.data, c.isWhitespace = false)
    (hz : z ≠ []) (hzws : ∀ c ∈ z, c.isWhitespace = false) :
    pySplitWs (t ++ " " ++ (⟨z⟩ : String)) = [t, ⟨z⟩] := by
  unfold pySplitWs
  have hdata : (t ++ " " ++ (⟨z⟩ : String)).data = t.data ++ ' ' :: z := by
    rw [String.data_append, String.data_append]
    simp
  rw [hdata]
  rw [pySplitWsChars_word t.data [] z htws (Or.inr ht)]
  rw [pySplitWsChars_last z [] hzws (Or.inr hz)]
  simp

/-- Decimal prints contain no whitespace. -/
theorem toDigits_ws (n : Nat) : ∀ c ∈ Nat.toDigits 10 n, c.isWhitespace = false := by
  intro c hc
  have h := toDigitsCore_all (fun ch => ch ≠ '-' ∧ ch.isWhitespace = false)
    (fun d hd => (digitChar_facts d hd).1) (n + 1) n [] (by simp) c hc
  exact h.2

/-- Decimal prints are nonempty. -/
theorem toDigits_nonempty (n : Nat) : Nat.toDigits 10 n ≠ [] := by
  simpa using toDigitsCore_ne_nil (n + 1) n [] (Nat.succ_pos n)

/-- Splitting a formatted term label recovers the term word and the year digits. -/
theorem pySplitWs_term_repr (t : String) (ht : t.data ≠ [])
    (htws : ∀ c ∈ t.data, c.isWhitespace = false) (n : Nat) :
    pySplitWs (term_label t (n : Int)) = [t, ⟨Nat.toDigits 10 n⟩] := by
  unfold term_label
  have hts : toString ((n : Nat) : Int) = (⟨Nat.toDigits 10 n⟩ : String) := rfl
  rw [hts]
  exact pySplitWs_label t _ ht htws (toDigits_nonempty n) (toDigits_ws n)

/-- Heuristic-planner successor: Fall Y maps to Spring Y+1. -/
theorem next_semester_label_fall (today : Int × Int) (n : Nat) :
    next_semester_label today (term_label "Fall" (n : Int)) = term_label "Spring" ((n : Int) + 1) := by
  unfold next_semester_label
  rw [pySplitWs_term_repr "Fall" (by decide) (by decide) n]
  simp only [pyInt_toDigits n, Option.map_some]
  simp [term_label]

/-- Heuristic-planner successor: Spring Y maps to Summer Y. -/
theorem next_semester_label_spring (today : Int × Int) (n : Nat) :
    next_semester_label today (term_label "Spring" (n : Int)) = term_label "Summer" (n : Int) := by
  unfold next_semester_label
  rw [pySplitWs_term_repr "Spring" (by decide) (by decide) n]
  simp only [pyInt_toDigits n, Option.map_some]
  simp [term_label]

/-- Heuristic-planner successor: Summer Y maps to Fall Y. -/
theorem next_semester_label_summer (today : Int × Int) (n : Nat) :
    next_semester_label today (term_label "Summer" (n : Int)) = term_label "Fall" (n : Int) := by
  unfold next_semester_label
  rw [pySplitWs_term_repr "Summer" (by decide) (by decide) n]
  simp only [pyInt_toDigits n, Option.map_some]
  simp [term_label]

/-- Exact-planner successor: Fall Y maps to Spring Y+1. -/
theorem next_sem_label_fall (todayYear : Int) (n : Nat) :
    next_sem_label todayYear (term_label "Fall" (n : Int)) = term_label "Spring" ((n : Int) + 1) := by
  unfold next_sem_label
  rw [pySplitWs_term_repr "Fall" (by decide) (by decide) n]
  simp only [pyInt_toDigits n]
  simp [term_label]

/-- Exact-planner successor: Spring Y maps to Summer Y. -/
theorem next_sem_label_spring (todayYear : Int) (n : Nat) :
    next_sem_label todayYear (term_label "Spring" (n : Int)) = term_label "Summer" (n : Int) := by
  unfold next_sem_label
  rw [pySplitWs_term_repr "Spring" (by decide) (by decide) n]
  simp only [pyInt_toDigits n]
  simp [term_label]

/-- Exact-planner successor: Summer Y maps to Fall Y. -/
theorem next_sem_label_summer (todayYear : Int) (n : Nat) :
    next_sem_label todayYear (term_label "Summer" (n : Int)) = term_label "Fall" (n : Int) := by
  unfold next_sem_label
  rw [pySplitWs_term_repr "Summer" (by decide) (by decide) n]
  simp only [pyInt_toDigits n]
  simp [term_label]

/-- C9: for every year Y, both term-label successor implementations map
`Fall Y` to `Spring Y+1`, `Spring Y+1` to `Summer Y+1` and `Summer Y+1` to
`Fall Y+1`; consequently three applications map `Fall Y` to `Fall Y+1`.
This holds for the heuristic planner's `_next_semester_label` and the exact
planner's `_next_sem_label` alike, for any current date used by their
fallbacks. -/
theorem C9_term_successor (today : Int × Int) (todayYear : Int) (y : Nat) :
    next_semester_label today (term_label "Fall" (y : Int)) = term_label "Spring" ((y : Int) + 1)
    ∧ next_semester_label today (term_label "Spring" ((y : Int) + 1)) = term_label "Summer" ((y : Int) + 1)
    ∧ next_semester_label today (term_label "Summer" ((y : Int) + 1)) = term_label "Fall" ((y : Int) + 1)
    ∧ next_semester_label today (next_semester_label today (next_semester_label today
        (term_label "Fall" (y : Int)))) = term_label "Fall" ((y : Int) + 1)
    ∧ next_sem_label todayYear (term_label "Fall" (y : Int)) = term_label "Spring" ((y : Int) + 1)
    ∧ next_sem_label todayYear (term_label "Spring" ((y : Int) + 1)) = term_label "Summer" ((y : Int) + 1)
    ∧ next_sem_label todayYear (term_label "Summer" ((y : Int) + 1)) = term_label "Fall" ((y : Int) + 1)
    ∧ next_sem_label todayYear (next_sem_label todayYear (next_sem_label todayYear
        (term_label "Fall" (y : Int)))) = term_label "Fall" ((y : Int) + 1) := by
  have hcast : ((y : Int) + 1) = ((y + 1 : Nat) : Int) := by push_cast; ring
  have h1 := next_semester_label_fall today y
  have h2 : next_semester_label today (term_label "Spring" ((y : Int) + 1)) = term_label "Summer" ((y : Int) + 1) := by
    rw [hcast]; exact next_semester_label_spring today (y + 1)
  have h3 : next_semester_label today (term_label "Summer" ((y : Int) + 1)) = term_label "Fall" ((y : Int) + 1) := by
    rw [hcast]; exact next_semester_label_summer today (y + 1)
  have g1 := next_sem_label_fall todayYear y
  have g2 : next_sem_label todayYear (term_label "Spring" ((y : Int) + 1)) = term_label "Summer" ((y : Int) + 1) := by
    rw [hcast]; exact next_sem_label_spring todayYear (y + 1)
  have g3 : next_sem_label todayYear (term_label "Summer" ((y : Int) + 1)) = term_label "Fall" ((y : Int) + 1) := by
    rw [hcast]; exact next_sem_label_summer todayYear (y + 1)
  refine ⟨h1, h2, h3, ?_, g1, g2, g3, ?_⟩
  · rw [h1, h2, h3]
  · rw [g1, g2, g3]

/-- C5: in the exact planner, for the pathway consisting only of `CS2`
with prerequisite map `CS2 -> {MATH9}`, where `MATH9` is neither completed
nor a pathway course, the decision variable `x[(CS2, 0)]` exists (`CS2` is
offered in term 0), yet the prerequisite filter
`p in remaining_codes or p in code_to_course` (line 146) drops `MATH9`, so
no prerequisite constraint at all is generated for `(CS2, 0)` — the claim
requires `x[(CS2, 0)]` to be forced to 0 because no variable for `MATH9`
exists at any earlier term. -/
theorem C5_dropped_prereq_constraint :
    prereq_constraint_for c5pm ["CS2"] (code_to_course [c5course]) c5hasVar "CS2" 0 = none
    ∧ c5hasVar "CS2" 0 = true := by
  decide

/-- C8: with preferences containing only a non-empty `preferred_days` set,
a course meeting on a preferred day receives no `preferred_day_reward` and
no breakdown entry: the score of the MWF course is 375
(base 500 − 3·75 day penalty + 2·50 compactness) instead of the claimed
375 + 50, and `preference_adjustments` is empty — the preferred-day block
(line 233) sits inside `if preferred_instructors:` (line 210).  When a
matching preferred instructor is also set, the same course does receive
both rewards, showing the dependence the claim denies.  The last conjunct
mirrors the repository's own test `test_preferences_earliest_start_window`,
whose assertion `score_ok > score_early` fails for the same reason
(the window block is nested the same way). -/
theorem C8_preferred_day_nested_bug :
    (score_courses [c8course] none (some c8prefs)).breakdown.preference_adjustments = []
    ∧ (score_courses [c8course] none (some c8prefs)).score = 375
    ∧ ¬ ((score_courses [c8course] none (some c8prefs)).score = 375 + 50)
    ∧ ((score_courses [c8courseI] none (some c8prefsI)).breakdown.preference_adjustments.filterMap
        (fun a => a.reason)) = ["preferred_instructor", "preferred_day"]
    ∧ ¬ ((score_courses [c8ok] none (some c8wprefs)).score >
         (score_courses [c8early] none (some c8wprefs)).score) := by
  with_unfolding_all decide

end Yacs
